import Mathlib

/-!
Verification of the metadata-hydration and first-seen-timestamp subsystem of
`api/index.py` (a SoundCloud-to-podcast feed server).

The Python functions are shallowly embedded: Python values become the `PyVal`
inductive (with Python truthiness, `dict` as an insertion-ordered association
list, and floats modelled as exact scaled decimals extended with
`nan`/`inf`), code
that can raise returns `Except PyErr`, and the external world (the Upstash
key-value store reached over HTTP and the yt-dlp extractor) is modelled by an
explicit store state, a credentials record, and a fetch oracle.  Every external
call attempted by the code is recorded in an operation trace, so claims about
"zero store calls" or "at most `budget` expensive fetches" are statements about
the trace of a run.
-/

set_option maxRecDepth 10000

namespace SCPod

/-- Python exception classes that the embedded code can raise. -/
inductive PyErr where
  | typeError
  | valueError
  | overflowError
  | attributeError
deriving Repr, DecidableEq

/-- A Python float: the three non-finite values, plus finite values carried
exactly as a scaled decimal `mant / 10 ^ exp`.  (CPython floats are binary64;
the integral timestamps the code manipulates are exactly representable, and
the decimal strings it parses are modelled exactly.) -/
inductive PyFloat where
  | nan
  | inf
  | ninf
  | finite (mant : ℤ) (exp : ℕ)
deriving Repr, DecidableEq

/-- The universe of Python values the subsystem manipulates.  `dict` is an
insertion-ordered association list with unique keys (the code only builds
dicts through literals and item assignment, which preserve that invariant). -/
inductive PyVal where
  | none
  | bool (b : Bool)
  | int (n : ℤ)
  | float (f : PyFloat)
  | str (s : String)
  | list (xs : List PyVal)
  | dict (kvs : List (String × PyVal))
deriving Repr

/-- `value is None` -/
def PyVal.isNone : PyVal → Bool
  | .none => true
  | _ => false

/-- `isinstance(value, list)` -/
def PyVal.isList : PyVal → Bool
  | .list _ => true
  | _ => false

/-- `isinstance(value, dict)` -/
def PyVal.isDict : PyVal → Bool
  | .dict _ => true
  | _ => false

/-- `isinstance(value, str)` -/
def PyVal.isStr : PyVal → Bool
  | .str _ => true
  | _ => false

/-- Python truthiness (`bool(value)`).  Note `bool(float("nan"))` is `True`. -/
def pyTruthy : PyVal → Bool
  | .none => false
  | .bool b => b
  | .int n => n ≠ 0
  | .float .nan => true
  | .float .inf => true
  | .float .ninf => true
  | .float (.finite m _) => m ≠ 0
  | .str s => s ≠ ""
  | .list xs => ¬ xs.isEmpty
  | .dict kvs => ¬ kvs.isEmpty

/-- Python `a or b`: `a` when truthy, else `b`. -/
def pyOr (a b : PyVal) : PyVal := if pyTruthy a then a else b

/-- Key lookup in a dict body (first match — keys are unique by construction). -/
def dGet (kvs : List (String × PyVal)) (k : String) : Option PyVal :=
  match kvs with
  | [] => Option.none
  | (k', v) :: rest => if k' = k then some v else dGet rest k

/-- `d.get(k)` — missing keys give Python `None`. -/
def dGetPy (kvs : List (String × PyVal)) (k : String) : PyVal :=
  (dGet kvs k).getD .none

/-- `d.get(k, default)` -/
def dGetD (kvs : List (String × PyVal)) (k : String) (dflt : PyVal) : PyVal :=
  (dGet kvs k).getD dflt

/-- `d[k] = v`: replace in place when the key exists, else append (Python
dicts preserve insertion order). -/
def dSet (kvs : List (String × PyVal)) (k : String) (v : PyVal) :
    List (String × PyVal) :=
  match kvs with
  | [] => [(k, v)]
  | (k', v') :: rest => if k' = k then (k', v) :: rest else (k', v') :: dSet rest k v

/-- `d.setdefault(k, v)` -/
def dSetdefault (kvs : List (String × PyVal)) (k : String) (v : PyVal) :
    List (String × PyVal) :=
  match dGet kvs k with
  | some _ => kvs
  | Option.none => kvs ++ [(k, v)]

/-- `entry.get(k)` on an arbitrary value known to be a dict at the call site. -/
def pyGet (v : PyVal) (k : String) : PyVal :=
  match v with
  | .dict kvs => dGetPy kvs k
  | _ => .none

/-- Truncation toward zero of a scaled decimal `m / 10 ^ e`, as Python
`int(float)` does for finite floats. -/
def truncScaled (m : ℤ) (e : ℕ) : ℤ :=
  if 0 ≤ m then Int.fdiv m (10 ^ e) else -(Int.fdiv (-m) (10 ^ e))

/-- Floor of `m / 10 ^ e`, as Python float floor-division `//` rounds. -/
def floorScaled (m : ℤ) (e : ℕ) : ℤ := Int.fdiv m (10 ^ e)

/-- Python `int(value)`.  Raises `TypeError` on non-numeric values,
`ValueError` on `nan` strings/floats, `OverflowError` on infinite floats. -/
def pyInt : PyVal → Except PyErr ℤ
  | .bool b => .ok (if b then 1 else 0)
  | .int n => .ok n
  | .float .nan => .error .valueError
  | .float .inf => .error .overflowError
  | .float .ninf => .error .overflowError
  | .float (.finite m e) => .ok (truncScaled m e)
  | .str s =>
    match intOfString s with
    | some n => .ok n
    | Option.none => .error .valueError
  | _ => .error .typeError
where
  /-- `int(str)`: optional sign then decimal digits, surrounding blanks allowed. -/
  intOfString (s : String) : Option ℤ :=
    let cs := s.data.dropWhile (fun c => c = ' ') |>.reverse.dropWhile (fun c => c = ' ') |>.reverse
    match cs with
    | '-' :: ds => (digitsVal ds).map (fun n => -(n : ℤ))
    | '+' :: ds => (digitsVal ds).map (fun n => (n : ℤ))
    | ds => (digitsVal ds).map (fun n => (n : ℤ))
  /-- Value of a nonempty all-digit character list. -/
  digitsVal (ds : List Char) : Option ℕ :=
    if ds ≠ [] ∧ ds.all Char.isDigit then
      some (ds.foldl (fun acc c => acc * 10 + (c.toNat - '0'.toNat)) 0)
    else Option.none

/-- Python `float(value)` (only the shapes the merge code feeds it: numbers
and simple numeric strings; anything else raises as CPython would). -/
def pyFloatOf : PyVal → Except PyErr PyFloat
  | .bool b => .ok (.finite (if b then 1 else 0) 0)
  | .int n => .ok (.finite n 0)
  | .float f => .ok f
  | .str s =>
    match floatOfString s with
    | some f => .ok f
    | Option.none => .error .valueError
  | _ => .error .typeError
where
  /-- `float(str)`: optional sign, digits with an optional fractional part,
  or the words `inf`/`infinity`/`nan` (case insensitive). -/
  floatOfString (s : String) : Option PyFloat :=
    let cs := s.data.dropWhile (fun c => c = ' ') |>.reverse.dropWhile (fun c => c = ' ') |>.reverse
    let (neg, body) :=
      match cs with
      | '-' :: t => (true, t)
      | '+' :: t => (false, t)
      | t => (false, t)
    let lower := body.map Char.toLower
    if lower = "inf".data ∨ lower = "infinity".data then
      some (if neg then .ninf else .inf)
    else if lower = "nan".data then some .nan
    else
      match body.span Char.isDigit with
      | (intPart, rest) =>
        match rest with
        | [] =>
          if intPart ≠ [] then
            some (.finite (signed neg (natOfDigits intPart)) 0)
          else Option.none
        | '.' :: fracPart =>
          if (intPart ≠ [] ∨ fracPart ≠ []) ∧ fracPart.all Char.isDigit then
            some (.finite (signed neg (natOfDigits (intPart ++ fracPart))) fracPart.length)
          else Option.none
        | _ => Option.none
  natOfDigits (ds : List Char) : ℕ :=
    ds.foldl (fun acc c => acc * 10 + (c.toNat - '0'.toNat)) 0
  signed (neg : Bool) (n : ℕ) : ℤ := if neg then -(n : ℤ) else (n : ℤ)

/-- Python `str(value)` for the scalar shapes the code stringifies (keys and
descriptions); containers get a placeholder since the code never relies on
their exact repr. -/
def pyStrOf : PyVal → String
  | .none => "None"
  | .bool b => if b then "True" else "False"
  | .int n => toString n
  | .float .nan => "nan"
  | .float .inf => "inf"
  | .float .ninf => "-inf"
  | .float (.finite m _) => toString m
  | .str s => s
  | .list _ => "[...]"
  | .dict _ => "{...}"

/-! ## Calendar arithmetic (for `datetime.strptime(cleaned, '%Y%m%d')` and
`datetime.fromisoformat`, both evaluated at UTC) -/

/-- Gregorian leap-year test. -/
def isLeapYear (y : ℤ) : Bool := y % 4 = 0 ∧ (y % 100 ≠ 0 ∨ y % 400 = 0)

/-- Days in a month of the proleptic Gregorian calendar. -/
def daysInMonth (y : ℤ) (m : ℕ) : ℕ :=
  if m = 2 then (if isLeapYear y then 29 else 28)
  else if m = 4 ∨ m = 6 ∨ m = 9 ∨ m = 11 then 30
  else 31

/-- Number of days from 1970-01-01 to the given civil date (standard
era-based algorithm). -/
def daysFromCivil (y : ℤ) (m d : ℕ) : ℤ :=
  let y' : ℤ := if m ≤ 2 then y - 1 else y
  let era : ℤ := Int.fdiv y' 400
  let yoe : ℤ := y' - era * 400
  let mp : ℕ := (m + 9) % 12
  let doy : ℤ := (153 * (mp : ℤ) + 2) / 5 + (d : ℤ) - 1
  let doe : ℤ := yoe * 365 + yoe / 4 - yoe / 100 + doy
  era * 146097 + doe - 719468

/-- Epoch seconds of midnight UTC on a civil date. -/
def epochOfDateUTC (y : ℤ) (m d : ℕ) : ℤ := 86400 * daysFromCivil y m d

/-! ## `coerce_epoch_seconds` -/

/-- Python `str.strip()` restricted to ASCII whitespace. -/
def pyStrip (s : String) : String :=
  String.mk (s.data.dropWhile Char.isWhitespace |>.reverse.dropWhile Char.isWhitespace |>.reverse)

/-- `str.isdigit()` for the ASCII digits the code feeds it. -/
def pyIsDigit (s : String) : Bool := ¬ s.data.isEmpty ∧ s.data.all Char.isDigit

/-- Decimal value of a digit-character list. -/
def digitsToNat (ds : List Char) : ℕ :=
  ds.foldl (fun acc c => acc * 10 + (c.toNat - '0'.toNat)) 0

/-- `datetime.strptime(cleaned, '%Y%m%d')` followed by `.timestamp()` at UTC,
on an 8-digit string: the first four digits are the year, then two-digit month
and day; `strptime`/`datetime` reject year 0, months outside 1..12 and days
outside the month's length, raising `ValueError` (modelled as `none`). -/
def parseYYYYMMDD (ds : List Char) : Option ℤ :=
  match ds with
  | [y1, y2, y3, y4, m1, m2, d1, d2] =>
    let y : ℕ := digitsToNat [y1, y2, y3, y4]
    let m : ℕ := digitsToNat [m1, m2]
    let d : ℕ := digitsToNat [d1, d2]
    if 1 ≤ y ∧ 1 ≤ m ∧ m ≤ 12 ∧ 1 ≤ d ∧ d ≤ daysInMonth (y : ℤ) m then
      some (epochOfDateUTC (y : ℤ) m d)
    else Option.none
  | _ => Option.none

/-- Model of `datetime.fromisoformat` (the strict subset
`YYYY-MM-DD[*HH:MM[:SS]][±HH:MM]` accepted by the interpreter the code runs
on) followed by `.timestamp()`, with a missing offset treated as UTC exactly
as the code's `dt.replace(tzinfo=timezone.utc)` does.  A parse failure is the
caught `ValueError`, modelled as `none`. -/
def parseIsoToEpoch (cs : List Char) : Option ℤ :=
  match cs with
  | y1 :: y2 :: y3 :: y4 :: '-' :: m1 :: m2 :: '-' :: d1 :: d2 :: rest =>
    if ([y1, y2, y3, y4, m1, m2, d1, d2].all Char.isDigit) then
      let y : ℕ := digitsToNat [y1, y2, y3, y4]
      let m : ℕ := digitsToNat [m1, m2]
      let d : ℕ := digitsToNat [d1, d2]
      if 1 ≤ y ∧ 1 ≤ m ∧ m ≤ 12 ∧ 1 ≤ d ∧ d ≤ daysInMonth (y : ℤ) m then
        match rest with
        | [] => some (epochOfDateUTC (y : ℤ) m d)
        | sep :: timePart =>
          if sep = 'T' ∨ sep = ' ' then
            (parseTime timePart).map (fun t => epochOfDateUTC (y : ℤ) m d + t)
          else Option.none
      else Option.none
    else Option.none
  | _ => Option.none
where
  /-- `HH:MM[:SS]` with an optional `±HH:MM` offset; yields seconds past
  midnight minus the offset. -/
  parseTime (cs : List Char) : Option ℤ :=
    match cs with
    | h1 :: h2 :: ':' :: mi1 :: mi2 :: rest =>
      if ([h1, h2, mi1, mi2].all Char.isDigit) then
        let h : ℕ := digitsToNat [h1, h2]
        let mi : ℕ := digitsToNat [mi1, mi2]
        if h ≤ 23 ∧ mi ≤ 59 then
          match rest with
          | [] => some ((h : ℤ) * 3600 + (mi : ℤ) * 60)
          | ':' :: s1 :: s2 :: rest' =>
            if ([s1, s2].all Char.isDigit) then
              let s : ℕ := digitsToNat [s1, s2]
              if s ≤ 59 then
                (parseOffset rest').map
                  (fun off => (h : ℤ) * 3600 + (mi : ℤ) * 60 + (s : ℤ) - off)
              else Option.none
            else Option.none
          | rest' =>
            (parseOffset rest').map (fun off => (h : ℤ) * 3600 + (mi : ℤ) * 60 - off)
        else Option.none
      else Option.none
    | _ => Option.none
  /-- An empty offset (naive datetime, treated as UTC) or `±HH:MM`. -/
  parseOffset (cs : List Char) : Option ℤ :=
    match cs with
    | [] => some 0
    | sgn :: h1 :: h2 :: ':' :: m1 :: m2 :: [] =>
      if (sgn = '+' ∨ sgn = '-') ∧ ([h1, h2, m1, m2].all Char.isDigit) then
        let h : ℕ := digitsToNat [h1, h2]
        let m : ℕ := digitsToNat [m1, m2]
        if h ≤ 23 ∧ m ≤ 59 then
          let mag : ℤ := (h : ℤ) * 3600 + (m : ℤ) * 60
          some (if sgn = '-' then -mag else mag)
        else Option.none
      else Option.none
    | _ => Option.none

/-- The string branch of `coerce_epoch_seconds` (it can never raise: the two
parses it attempts have their `ValueError`s caught). -/
def coerceEpochStr (s : String) : Option ℤ :=
  let cleaned := pyStrip s
  if cleaned = "" then Option.none
  else if pyIsDigit cleaned then
    let numeric_value : ℤ := (digitsToNat cleaned.data : ℤ)
    if cleaned.data.length = 13 then some (numeric_value / 1000)
    else if cleaned.data.length = 8 then
      match parseYYYYMMDD cleaned.data with
      | some t => some t
      | Option.none => some numeric_value
    else some numeric_value
  else
    let iso := if cleaned.data.getLast? = some 'Z' then
      cleaned.data.dropLast ++ "+00:00".data else cleaned.data
    parseIsoToEpoch iso

/-- `coerce_epoch_seconds(value)` of `api/index.py`.  Numeric values above
`10**12` are divided by 1000 (Python `//` is a floor division); `bool` is an
`int` subclass in Python, so it takes the numeric branch.  `int()` applied to
a non-finite float raises: `nan` (and `inf`, whose `inf // 1000` is `nan`)
raise `ValueError`, `-inf` raises `OverflowError` — neither is caught. -/
def coerce_epoch_seconds : PyVal → Except PyErr (Option ℤ)
  | .none => .ok Option.none
  | .bool b => .ok (some (if b then 1 else 0))
  | .int n => .ok (some (if 10 ^ 12 < n then Int.fdiv n 1000 else n))
  | .float .nan => .error .valueError
  | .float .inf => .error .valueError
  | .float .ninf => .error .overflowError
  | .float (.finite m e) =>
    .ok (some (if (10 ^ (12 + e) : ℤ) < m then floorScaled m (e + 3) else truncScaled m e))
  | .str s => .ok (coerceEpochStr s)
  | .list _ => .ok Option.none
  | .dict _ => .ok Option.none

/-! ## The key-value store (Upstash / Vercel KV over REST)

The store is modelled as an association list from encoded keys to the decoded
JSON value it holds (the code writes `json.dumps(payload)` or `str(timestamp)`
and the `GET` side decodes once, so composing the two is the identity on the
JSON-representable values the code stores).  Every attempted HTTP call is
recorded as an `ExtOp`. -/

/-- The two environment bindings `KV_REST_API_URL` / `KV_REST_API_TOKEN`. -/
structure KvConfig where
  url : Option String
  token : Option String
deriving Repr

/-- Truthiness of an optional environment string (`os.environ.get` result). -/
def envTruthy : Option String → Bool
  | Option.none => false
  | some s => s ≠ ""

/-- `vercel_kv_available()`: `bool(URL and TOKEN)`. -/
def vercel_kv_available (cfg : KvConfig) : Bool :=
  envTruthy cfg.url && envTruthy cfg.token

/-- Durable state of the external key-value store. -/
abbrev Store := List (String × PyVal)

/-- One attempted external call: a KV `GET`, a KV `SET`, or an expensive
yt-dlp metadata extraction. -/
inductive ExtOp where
  | kvGet (key : String)
  | kvSet (key : String) (value : PyVal)
  | fetch (url : String)
deriving Repr

/-- Number of expensive extractor calls in a trace. -/
def countFetch (ops : List ExtOp) : ℕ :=
  ops.countP (fun o => match o with | .fetch _ => true | _ => false)

/-- `true` when a trace contains no key-value store call at all. -/
def noKvOps (ops : List ExtOp) : Bool :=
  ops.all (fun o => match o with | .fetch _ => true | _ => false)

/-- `get_kv_key(feed_path, track_id)` -/
def get_kv_key (feed_path track_id : String) : String :=
  "feed:" ++ feed_path ++ ":track:" ++ track_id

/-- The UTF-8 bytes of a code point. -/
def utf8Bytes (n : ℕ) : List ℕ :=
  if n < 0x80 then [n]
  else if n < 0x800 then [0xC0 + n / 64, 0x80 + n % 64]
  else if n < 0x10000 then [0xE0 + n / 4096, 0x80 + (n / 64) % 64, 0x80 + n % 64]
  else [0xF0 + n / 262144, 0x80 + (n / 4096) % 64, 0x80 + (n / 64) % 64, 0x80 + n % 64]

/-- `encode_kv_key(key)`: `urllib.parse.quote(key, safe='')`, percent-encoding
every UTF-8 byte outside `ALPHA / DIGIT / "_.-~"`. -/
def encode_kv_key (key : String) : String :=
  String.mk ((key.data.flatMap (fun c => utf8Bytes c.toNat)).flatMap encodeByte)
where
  hexDigit (n : ℕ) : Char :=
    if n < 10 then Char.ofNat ('0'.toNat + n) else Char.ofNat ('A'.toNat + n - 10)
  encodeByte (n : ℕ) : List Char :=
    if (0x30 ≤ n ∧ n ≤ 0x39) ∨ (0x41 ≤ n ∧ n ≤ 0x5A) ∨ (0x61 ≤ n ∧ n ≤ 0x7A) ∨
        n = 0x5F ∨ n = 0x2E ∨ n = 0x2D ∨ n = 0x7E then
      [Char.ofNat n]
    else
      ['%', hexDigit (n / 16), hexDigit (n % 16)]

/-! ## First-Seen Tracker -/

mutual

/-- Structural size of a value, used to seed the recursion fuel of the
KV-timestamp coercion (it dominates the total work of that recursion). -/
def pySize : PyVal → ℕ
  | .dict kvs => 1 + pySizeKvs kvs
  | _ => 1
termination_by structural v => v

/-- Structural size of a dict body. -/
def pySizeKvs : List (String × PyVal) → ℕ
  | [] => 1
  | (_, v) :: rest => 1 + pySize v + pySizeKvs rest
termination_by structural l => l

end

mutual

/-- The inner `_coerce_timestamp` of `get_track_first_seen_time`, which turns
whatever the store returned into an integer timestamp: numbers via `int()`,
dicts by trying the `value`/`result` keys and then every value in order,
strings via unquoting and `int(float(...))`.  It runs inside the function's
catch-all `try`, so an error raised here (e.g. `int(nan)`) is swallowed by
the caller.  The `fuel` argument only bounds the recursion through nested
dicts; callers seed it with `pySize`, which it never exhausts.  The
`json.loads` last resort for non-numeric strings is modelled as
unrecognized (the code only ever stores plain numeric strings). -/
def coerceKvTimestampF : ℕ → PyVal → Except PyErr (Option ℤ)
  | 0, _ => .ok Option.none
  | fuel + 1, v =>
    match v with
    | .none => .ok Option.none
    | .int n => .ok (some n)
    | .bool b => .ok (some (if b then 1 else 0))
    | .float f => (pyInt (.float f)).map some
    | .dict kvs => do
      let fromValue ←
        match dGet kvs "value" with
        | some w => coerceKvTimestampF fuel w
        | Option.none => pure Option.none
      match fromValue with
      | some n => pure (some n)
      | Option.none => do
        let fromResult ←
          match dGet kvs "result" with
          | some w => coerceKvTimestampF fuel w
          | Option.none => pure Option.none
        match fromResult with
        | some n => pure (some n)
        | Option.none => coerceKvValsF fuel kvs
    | .str s =>
      let cleaned := pyStrip s
      let cleaned :=
        match cleaned.data with
        | '"' :: (c :: cs) =>
          if (c :: cs).getLast? = some '"' then String.mk ((c :: cs).dropLast)
          else cleaned
        | _ => cleaned
      match pyFloatOf.floatOfString cleaned with
      | some f => (pyInt (.float f)).map some
      | Option.none => .ok Option.none
    | .list _ => .ok Option.none
termination_by structural fuel => fuel

/-- The `for nested_value in raw_value.values()` fallback scan. -/
def coerceKvValsF : ℕ → List (String × PyVal) → Except PyErr (Option ℤ)
  | 0, _ => .ok Option.none
  | _ + 1, [] => .ok Option.none
  | fuel + 1, (_, w) :: rest => do
    let r ← coerceKvTimestampF fuel w
    match r with
    | some n => pure (some n)
    | Option.none => coerceKvValsF fuel rest
termination_by structural fuel => fuel

end

/-- `_coerce_timestamp(raw_value)` with its fuel seeded. -/
def coerceKvTimestamp (v : PyVal) : Except PyErr (Option ℤ) :=
  coerceKvTimestampF (pySize v) v

/-- `get_track_first_seen_time(feed_path, track_id)`: `None` without
credentials; otherwise one KV `GET`, with the whole body wrapped in a
catch-all `try` so any coercion error also degrades to `None`. -/
def get_track_first_seen_time (cfg : KvConfig) (store : Store)
    (feed_path : String) (track_id : PyVal) : Option ℤ × List ExtOp :=
  if ¬ envTruthy cfg.url ∨ ¬ envTruthy cfg.token then (Option.none, [])
  else
    let key := encode_kv_key (get_kv_key feed_path (pyStrOf track_id))
    match dGet store key with
    | some v =>
      (match coerceKvTimestamp v with
       | .ok r => r
       | .error _ => Option.none, [.kvGet key])
    | Option.none => (Option.none, [.kvGet key])  -- HTTP 404: first sighting

/-- `set_track_first_seen_time(feed_path, track_id, timestamp)`: `False`
without credentials; otherwise one KV `SET` storing `str(timestamp)`. -/
def set_track_first_seen_time (cfg : KvConfig) (store : Store)
    (feed_path : String) (track_id : PyVal) (timestamp : ℤ) :
    Bool × Store × List ExtOp :=
  if ¬ envTruthy cfg.url ∨ ¬ envTruthy cfg.token then (false, store, [])
  else
    let key := encode_kv_key (get_kv_key feed_path (pyStrOf track_id))
    (true, dSet store key (.str (pyStrOf (.int timestamp))), [.kvSet key (.str (pyStrOf (.int timestamp)))])

/-- `track_id = item.get("id", "") or item.get("webpage_url", "")` of the
publication-date block of `create_podcast_xml`. -/
def gateTrackId (item : PyVal) : PyVal :=
  pyOr (match item with | .dict kvs => dGetD kvs "id" (.str "") | _ => .str "")
    (match item with | .dict kvs => dGetD kvs "webpage_url" (.str "") | _ => .str "")

/-- The publication-date resolution of `create_podcast_xml` for
synthetic-timestamp feeds (the read-before-write gate, lines 712–731):
derive a track id, read the first-seen record, and only on a miss write the
current time; the resolved epoch is the first-seen value or `now`. -/
def firstSeenPubDateGate (cfg : KvConfig) (store : Store) (feed_path : String)
    (item : PyVal) (now : ℤ) : ℤ × Store × List ExtOp :=
  let track_id := gateTrackId item
  if pyTruthy track_id then
    let (first_seen_time, ops₁) := get_track_first_seen_time cfg store feed_path track_id
    match first_seen_time with
    | some t => (t, store, ops₁)
    | Option.none =>
      let (_, store', ops₂) := set_track_first_seen_time cfg store feed_path track_id now
      (now, store', ops₁ ++ ops₂)
  else (now, store, [])

/-! ## Metadata Cache -/

/-- `TRACK_METADATA_PREFIX` -/
def TRACK_METADATA_PREFIX : String := "track-metadata"

/-- `TRACK_METADATA_VERSION` -/
def TRACK_METADATA_VERSION : String := "v1"

/-- `TRACK_METADATA_FIELDS`, the sanitization allow-list. -/
def TRACK_METADATA_FIELDS : List String :=
  ["id", "title", "uploader", "uploader_id", "duration", "timestamp",
   "upload_date", "release_timestamp", "webpage_url", "description",
   "last_modified", "thumbnails"]

/-- Python `value == "v1"`-style comparison against a string constant: only a
string with the same characters compares equal (other types are unequal, not
an error). -/
def pyEqStr (v : PyVal) (s : String) : Bool :=
  match v with
  | .str t => t = s
  | _ => false

/-- `f"{TRACK_METADATA_PREFIX}:{TRACK_METADATA_VERSION}:{track_id}"`, encoded. -/
def trackMetadataKey (track_id : PyVal) : String :=
  encode_kv_key (TRACK_METADATA_PREFIX ++ ":" ++ TRACK_METADATA_VERSION ++ ":" ++ pyStrOf track_id)

/-- The thumbnail-list reduction inside `sanitize_track_metadata`: keep only
dict entries whose `url` is truthy, reduced to their non-`None` `id`/`url`
fields. -/
def cleanThumbnails (thumbs : List PyVal) : List PyVal :=
  thumbs.filterMap (fun thumb =>
    match thumb with
    | .dict tkvs =>
      if pyTruthy (dGetPy tkvs "url") then
        some (.dict (([("id", dGetPy tkvs "id"), ("url", dGetPy tkvs "url")] :
          List (String × PyVal)).filter (fun kv => ¬ kv.2.isNone)))
      else Option.none
    | _ => Option.none)

/-- The field loop of `sanitize_track_metadata`: iterate the allow-list in
order, skipping absent and `None` fields; `duration` goes through `int()`
with only `TypeError`/`ValueError` caught (so an infinite float propagates
`OverflowError`); a *list* `thumbnails` is reduced (and dropped when the
reduction is empty), while any other `thumbnails` value falls through to the
generic copy. -/
def sanitizeFields (raw : List (String × PyVal)) :
    List String → List (String × PyVal) → Except PyErr (List (String × PyVal))
  | [], acc => .ok acc
  | field :: rest, acc =>
    match dGet raw field with
    | Option.none => sanitizeFields raw rest acc
    | some value =>
      if value.isNone then sanitizeFields raw rest acc
      else if field = "duration" then
        match pyInt value with
        | .ok n => sanitizeFields raw rest (dSet acc field (.int n))
        | .error .typeError => sanitizeFields raw rest acc
        | .error .valueError => sanitizeFields raw rest acc
        | .error e => .error e
      else if field = "thumbnails" ∧ value.isList then
        match value with
        | .list thumbs =>
          let cleaned := cleanThumbnails thumbs
          if ¬ cleaned.isEmpty then sanitizeFields raw rest (dSet acc field (.list cleaned))
          else sanitizeFields raw rest acc
        | _ => sanitizeFields raw rest acc
      else sanitizeFields raw rest (dSet acc field value)

/-- `sanitize_track_metadata(raw_metadata)`: non-dicts give `None`; then the
allow-list loop, the `webpage_url`-from-`url` fallback, and `sanitized or
None` (an empty result is returned as `None`). -/
def sanitize_track_metadata (raw_metadata : PyVal) : Except PyErr (Option PyVal) :=
  match raw_metadata with
  | .dict raw => do
    let sanitized ← sanitizeFields raw TRACK_METADATA_FIELDS []
    let sanitized :=
      if (dGet sanitized "webpage_url").isNone ∧ pyTruthy (dGetPy raw "url") then
        dSet sanitized "webpage_url" (dGetPy raw "url")
      else sanitized
    pure (if sanitized.isEmpty then Option.none else some (.dict sanitized))
  | _ => .ok Option.none

/-- `get_track_metadata(track_id)`: `None` without credentials or with a
falsy id (no call attempted); otherwise one KV `GET`, whose decoded payload
(or `None` on a 404 miss) is returned. -/
def get_track_metadata (cfg : KvConfig) (store : Store) (track_id : PyVal) :
    PyVal × List ExtOp :=
  if ¬ vercel_kv_available cfg ∨ ¬ pyTruthy track_id then (.none, [])
  else
    let key := trackMetadataKey track_id
    ((dGet store key).getD .none, [.kvGet key])

/-- `set_track_metadata(track_id, payload)`: `False` without credentials, a
falsy id or a falsy payload (no call attempted); otherwise one KV `SET` of
the JSON-encoded payload. -/
def set_track_metadata (cfg : KvConfig) (store : Store) (track_id payload : PyVal) :
    Bool × Store × List ExtOp :=
  if ¬ vercel_kv_available cfg ∨ ¬ pyTruthy track_id ∨ ¬ pyTruthy payload then
    (false, store, [])
  else
    let key := trackMetadataKey track_id
    (true, dSet store key payload, [.kvSet key payload])

/-! ## Hydration Engine -/

/-- `resolve_track_url(entry)`: `webpage_url` / `url` / `webpage` in order;
absolute http(s) URLs pass through, other truthy values are appended to the
SoundCloud origin.  Python calls `.startswith` on the candidate, so a truthy
non-string raises `AttributeError`. -/
def resolve_track_url (entry : PyVal) : Except PyErr (Option String) :=
  match entry with
  | .dict kvs =>
    let candidate := pyOr (dGetPy kvs "webpage_url") (pyOr (dGetPy kvs "url") (dGetPy kvs "webpage"))
    if ¬ pyTruthy candidate then .ok Option.none
    else
      match candidate with
      | .str s =>
        if s.startsWith "http://" ∨ s.startsWith "https://" then .ok (some s)
        else .ok (some ("https://soundcloud.com/" ++ String.mk (s.data.dropWhile (fun c => c = '/'))))
      | _ => .error .attributeError
  | _ => .ok Option.none

/-- `fetch_track_metadata(track_url)`: no external call for a falsy URL;
otherwise one extractor call (`oracle`, `none` when `extract_info` raises),
sanitized — the catch-all `except` also swallows sanitization errors. -/
def fetch_track_metadata (oracle : String → Option PyVal) (track_url : Option String) :
    Option PyVal × List ExtOp :=
  match track_url with
  | Option.none => (Option.none, [])
  | some u =>
    match oracle u with
    | Option.none => (Option.none, [.fetch u])
    | some raw =>
      (match sanitize_track_metadata raw with
       | .ok r => r
       | .error _ => Option.none, [.fetch u])

/-! ## Entry Normalizer (`merge_entry_with_metadata`), staged -/

/-- The metadata overlay loop: copy each non-`None` metadata item over the
flat entry, except a non-list `thumbnails`. -/
def overlayMeta (merged : List (String × PyVal)) :
    List (String × PyVal) → List (String × PyVal)
  | [] => merged
  | (key, value) :: rest =>
    if value.isNone then overlayMeta merged rest
    else if key = "thumbnails" ∧ ¬ value.isList then overlayMeta merged rest
    else overlayMeta (dSet merged key value) rest

/-- `merged = dict(entry) if isinstance(entry, dict) else {}` followed by the
overlay; a truthy non-dict metadata raises `AttributeError` at `.items()`. -/
def mergeOverlay (entry metadata : PyVal) : Except PyErr (List (String × PyVal)) :=
  let merged := match entry with | .dict kvs => kvs | _ => []
  if pyTruthy metadata then
    match metadata with
    | .dict mkvs => .ok (overlayMeta merged mkvs)
    | _ => .error .attributeError
  else .ok merged

/-- The two `setdefault` lines (title from `name` or `"Unknown Title"`,
uploader `"Unknown Artist"`). -/
def applyTitleUploader (merged : List (String × PyVal)) : List (String × PyVal) :=
  let merged := dSetdefault merged "title" (pyOr (dGetPy merged "name") (.str "Unknown Title"))
  dSetdefault merged "uploader" (.str "Unknown Artist")

/-- The canonical-URL candidate: `webpage_url` / `url` from the merged dict,
else `resolve_track_url(entry)` (whose `None` stays falsy). -/
def resolvedTrackUrl (entry : PyVal) (merged : List (String × PyVal)) :
    Except PyErr PyVal :=
  let track_url₀ := pyOr (dGetPy merged "webpage_url") (dGetPy merged "url")
  if pyTruthy track_url₀ then .ok track_url₀
  else
    match resolve_track_url entry with
    | .ok r => .ok (match r with | some s => PyVal.str s | Option.none => PyVal.none)
    | .error e => .error e

/-- The canonical-URL write-back: only a truthy resolved URL is written. -/
def applyTrackUrl (entry : PyVal) (merged : List (String × PyVal)) :
    Except PyErr (List (String × PyVal)) :=
  match resolvedTrackUrl entry merged with
  | .ok track_url =>
    if pyTruthy track_url then .ok (dSet merged "webpage_url" track_url)
    else .ok merged
  | .error e => .error e

/-- The duration defaulting: `None` becomes `0`; otherwise
`int(float(value))` with only `TypeError`/`ValueError` caught (an infinite
float propagates `OverflowError`). -/
def applyDuration (merged : List (String × PyVal)) :
    Except PyErr (List (String × PyVal)) :=
  match dGetPy merged "duration" with
  | .none => .ok (dSet merged "duration" (.int 0))
  | dv =>
    match pyFloatOf dv with
    | .error .typeError => .ok (dSet merged "duration" (.int 0))
    | .error .valueError => .ok (dSet merged "duration" (.int 0))
    | .error e => .error e
    | .ok f =>
      match pyInt (.float f) with
      | .error .typeError => .ok (dSet merged "duration" (.int 0))
      | .error .valueError => .ok (dSet merged "duration" (.int 0))
      | .error e => .error e
      | .ok n => .ok (dSet merged "duration" (.int n))

/-- The timestamp candidate loop: coerce
`timestamp, release_timestamp, epoch, last_modified, upload_date` in order
and stop at the first parseable one (coercion errors propagate, as in the
code). -/
def firstCoerced : List PyVal → Except PyErr (Option ℤ)
  | [] => .ok Option.none
  | c :: rest => do
    let r ← coerce_epoch_seconds c
    match r with
    | some t => pure (some t)
    | Option.none => firstCoerced rest

/-- Apply the resolved timestamp when one exists. -/
def applyTimestamp (merged : List (String × PyVal)) :
    Except PyErr (List (String × PyVal)) := do
  let resolved ← firstCoerced
    [dGetPy merged "timestamp", dGetPy merged "release_timestamp",
     dGetPy merged "epoch", dGetPy merged "last_modified", dGetPy merged "upload_date"]
  match resolved with
  | some t => pure (dSet merged "timestamp" (.int t))
  | Option.none => pure merged

/-- The description defaulting: `None` becomes `""`, non-strings are
stringified. -/
def applyDescription (merged : List (String × PyVal)) : List (String × PyVal) :=
  match dGetPy merged "description" with
  | .none => dSet merged "description" (.str "")
  | .str _ => merged
  | d => dSet merged "description" (.str (pyStrOf d))

/-- `merge_entry_with_metadata(entry, metadata)` of `api/index.py`, the
composition of the stages above in source order. -/
def merge_entry_with_metadata (entry metadata : PyVal) : Except PyErr PyVal := do
  let merged ← mergeOverlay entry metadata
  let merged := applyTitleUploader merged
  let merged ← applyTrackUrl entry merged
  let merged ← applyDuration merged
  let merged ← applyTimestamp merged
  pure (.dict (applyDescription merged))

/-! ## `hydrate_track_entries` -/

/-- Mutable per-request state of a hydration run: the external store and the
remaining refresh budget. -/
structure HydState where
  store : Store
  budget : ℤ
deriving Repr

/-- Track-identifier derivation:
`entry.get('id') or entry.get('track_id') or entry.get('webpage_url')` for
dict entries, `None` otherwise. -/
def deriveTrackId (entry : PyVal) : PyVal :=
  match entry with
  | .dict kvs => pyOr (dGetPy kvs "id") (pyOr (dGetPy kvs "track_id") (dGetPy kvs "webpage_url"))
  | _ => .none

/-- The refresh decision (lines 459–461): required when no version-matched
cached metadata exists, or when both watermarks are *truthy* (a Python `and`
chain, so the integer `0` counts as absent) and the entry's signal is
strictly newer. -/
def needsRefresh (metadata : PyVal)
    (entry_last_modified cached_last_modified : Option ℤ) : Bool :=
  metadata.isNone ||
    (match entry_last_modified, cached_last_modified with
     | some a, some b => a ≠ 0 && b ≠ 0 && decide (b < a)
     | _, _ => false)

/-- The version gate: only a dict record whose `version` tag equals
`TRACK_METADATA_VERSION` contributes candidate metadata and a staleness
watermark. -/
def versionGate (cached_record : PyVal) : Except PyErr (PyVal × Option ℤ) :=
  match cached_record with
  | .dict kvs =>
    if pyEqStr (dGetPy kvs "version") TRACK_METADATA_VERSION then do
      let clm ← coerce_epoch_seconds (dGetPy kvs "last_modified")
      pure (dGetPy kvs "metadata", clm)
    else pure (.none, Option.none)
  | _ => pure (.none, Option.none)

/-- The entry's own last-modified signal: `last_modified`, else `timestamp`,
both through `coerce_epoch_seconds`. -/
def entryLastModified (entry : PyVal) : Except PyErr (Option ℤ) :=
  match entry with
  | .dict kvs => do
    let a ← coerce_epoch_seconds (dGetPy kvs "last_modified")
    match a with
    | some _ => pure a
    | Option.none => coerce_epoch_seconds (dGetPy kvs "timestamp")
  | _ => pure Option.none

/-- Lift an optional integer back into a Python value. -/
def optIntToPy : Option ℤ → PyVal
  | some n => .int n
  | Option.none => .none

/-- The watermark stored alongside a fresh fetch: the entry's own signal,
else the new metadata's `last_modified`, else its `timestamp`. -/
def storedLastModified (entry_last_modified : Option ℤ) (nm : PyVal) :
    Except PyErr (Option ℤ) :=
  match entry_last_modified with
  | some t => .ok (some t)
  | Option.none => do
    let a ← coerce_epoch_seconds (pyGet nm "last_modified")
    match a with
    | some _ => pure a
    | Option.none => coerce_epoch_seconds (pyGet nm "timestamp")

/-- The refresh attempt (lines 463–483): when a refresh is needed and budget
remains, resolve a URL, call the extractor, and decrement the budget
*regardless of success* (and even when no URL was resolvable, in which case
no external fetch happens); a truthy result replaces the candidate metadata
and is persisted keyed by the best available watermark, but only when the
track id is truthy. -/
def refreshPhase (cfg : KvConfig) (oracle : String → Option PyVal) (now : ℤ)
    (store : Store) (budget : ℤ) (entry track_id metadata : PyVal)
    (entry_last_modified : Option ℤ) (needs : Bool) :
    Except PyErr (PyVal × Store × ℤ × List ExtOp) :=
  if needs = true ∧ 0 < budget then do
    let track_url ← resolve_track_url entry
    let fetched := fetch_track_metadata oracle track_url
    let budget' := budget - 1
    match fetched.1 with
    | some nm =>
      if pyTruthy nm then do
        let stored_last_modified ← storedLastModified entry_last_modified nm
        let payload : PyVal := .dict
          [("version", .str TRACK_METADATA_VERSION), ("fetched_at", .int now),
           ("last_modified", optIntToPy stored_last_modified), ("metadata", nm)]
        let setRes :=
          if pyTruthy track_id then set_track_metadata cfg store track_id payload
          else (false, store, [])
        pure (nm, setRes.2.1, budget', fetched.2 ++ setRes.2.2)
      else pure (metadata, store, budget', fetched.2)
    | Option.none => pure (metadata, store, budget', fetched.2)
  else pure (metadata, store, budget, [])

/-- `cached_record = get_track_metadata(track_id) if track_id else None`. -/
def cacheLookup (cfg : KvConfig) (store : Store) (track_id : PyVal) :
    PyVal × List ExtOp :=
  if pyTruthy track_id then get_track_metadata cfg store track_id
  else (PyVal.none, [])

/-- One iteration of the `hydrate_track_entries` loop for a single entry. -/
def hydrateStep (cfg : KvConfig) (oracle : String → Option PyVal) (now : ℤ)
    (st : HydState) (entry : PyVal) :
    Except PyErr (PyVal × HydState × List ExtOp) := do
  let track_id := deriveTrackId entry
  let looked := cacheLookup cfg st.store track_id
  let cached_record := looked.1
  let vg ← versionGate cached_record
  let entry_last_modified ← entryLastModified entry
  let needs := needsRefresh vg.1 entry_last_modified vg.2
  let rp ← refreshPhase cfg oracle now st.store st.budget entry track_id vg.1
    entry_last_modified needs
  let metadata :=
    if rp.1.isNone ∧ cached_record.isDict then pyGet cached_record "metadata"
    else rp.1
  let merged ← merge_entry_with_metadata entry metadata
  pure (merged, ⟨rp.2.1, rp.2.2.1⟩, looked.2 ++ rp.2.2.2)

/-- The entry loop, threading store and budget and accumulating the trace. -/
def hydrateGo (cfg : KvConfig) (oracle : String → Option PyVal) (now : ℤ) :
    List PyVal → HydState → Except PyErr (List PyVal × HydState × List ExtOp)
  | [], st => .ok ([], st, [])
  | e :: rest, st => do
    let stepOut ← hydrateStep cfg oracle now st e
    let restOut ← hydrateGo cfg oracle now rest stepOut.2.1
    pure (stepOut.1 :: restOut.1, restOut.2.1, stepOut.2.2 ++ restOut.2.2)

/-- `hydrate_track_entries(entries, max_refreshes)` of `api/index.py`: the
initial budget is `max(0, max_refreshes)` and the entries are processed in
input order. -/
def hydrate_track_entries (cfg : KvConfig) (oracle : String → Option PyVal)
    (now : ℤ) (store : Store) (entries : List PyVal) (max_refreshes : ℤ) :
    Except PyErr (List PyVal × HydState × List ExtOp) :=
  hydrateGo cfg oracle now entries ⟨store, max 0 max_refreshes⟩

/-! ## Helper lemmas -/

theorem dGet_dSet_self (kvs : List (String × PyVal)) (k : String) (v : PyVal) :
    dGet (dSet kvs k v) k = some v := by
  induction kvs with
  | nil => simp [dSet, dGet]
  | cons kv rest ih =>
    obtain ⟨k', v'⟩ := kv
    by_cases h : k' = k <;> simp [dSet, dGet, h, ih]

theorem dGet_dSet_ne (kvs : List (String × PyVal)) (k k' : String) (v : PyVal)
    (h : k' ≠ k) : dGet (dSet kvs k v) k' = dGet kvs k' := by
  induction kvs with
  | nil => simp [dSet, dGet, Ne.symm h]
  | cons kv rest ih =>
    obtain ⟨k₀, v₀⟩ := kv
    by_cases h₀ : k₀ = k
    · subst h₀
      simp [dSet, dGet, Ne.symm h]
    · by_cases h₁ : k₀ = k' <;> simp [dSet, dGet, h₀, h₁, h, ih]

theorem dGet_append (xs ys : List (String × PyVal)) (k : String) :
    dGet (xs ++ ys) k = ((dGet xs k).rec (dGet ys k) (fun v => some v) : Option PyVal) := by
  induction xs with
  | nil => simp [dGet]
  | cons kv rest ih =>
    obtain ⟨k₀, v₀⟩ := kv
    by_cases h : k₀ = k <;> simp [dGet, h, ih]

theorem dGet_append_of_none (xs ys : List (String × PyVal)) (k : String)
    (h : dGet xs k = Option.none) : dGet (xs ++ ys) k = dGet ys k := by
  rw [dGet_append, h]

theorem dGet_append_of_some (xs ys : List (String × PyVal)) (k : String) (v : PyVal)
    (h : dGet xs k = some v) : dGet (xs ++ ys) k = some v := by
  rw [dGet_append, h]

theorem dGet_dSetdefault_ne (kvs : List (String × PyVal)) (k k' : String) (v : PyVal)
    (h : k' ≠ k) : dGet (dSetdefault kvs k v) k' = dGet kvs k' := by
  unfold dSetdefault
  cases hk : dGet kvs k with
  | none =>
    rw [dGet_append]
    cases hk' : dGet kvs k' <;> simp [dGet, h, Ne.symm h]
  | some w => rfl

theorem dGet_dSetdefault_of_none (kvs : List (String × PyVal)) (k : String) (v : PyVal)
    (h : dGet kvs k = Option.none) : dGet (dSetdefault kvs k v) k = some v := by
  unfold dSetdefault
  rw [h, dGet_append_of_none _ _ _ h]
  simp [dGet]

theorem except_bind_ok {α β : Type} {x : Except PyErr α} {f : α → Except PyErr β}
    {b : β} : (x >>= f) = .ok b ↔ ∃ a, x = .ok a ∧ f a = .ok b := by
  cases x with
  | ok a => simp [Bind.bind, Except.bind]
  | error e => simp [Bind.bind, Except.bind]

theorem countFetch_append (xs ys : List ExtOp) :
    countFetch (xs ++ ys) = countFetch xs + countFetch ys := by
  simp [countFetch, List.countP_append]

theorem noKvOps_append (xs ys : List ExtOp) :
    noKvOps (xs ++ ys) = (noKvOps xs && noKvOps ys) := by
  simp [noKvOps, List.all_append]

/-- A decimal digit is not whitespace. -/
theorem digit_not_whitespace (c : Char) (h : c.isDigit = true) :
    c.isWhitespace = false := by
  cases hw : c.isWhitespace with
  | false => rfl
  | true =>
    simp only [Char.isWhitespace] at hw
    rcases Bool.or_eq_true_iff.mp hw with h' | h'
    · rcases Bool.or_eq_true_iff.mp h' with h'' | h''
      · rcases Bool.or_eq_true_iff.mp h'' with h''' | h'''
        · rw [decide_eq_true_iff.mp h'''] at h; exact absurd h (by decide)
        · rw [decide_eq_true_iff.mp h'''] at h; exact absurd h (by decide)
      · rw [decide_eq_true_iff.mp h''] at h; exact absurd h (by decide)
    · rw [decide_eq_true_iff.mp h'] at h; exact absurd h (by decide)

theorem dropWhile_whitespace_of_digits (cs : List Char)
    (h : cs.all Char.isDigit = true) : cs.dropWhile Char.isWhitespace = cs := by
  cases cs with
  | nil => rfl
  | cons c rest =>
    simp only [List.all_cons, Bool.and_eq_true] at h
    simp [List.dropWhile_cons, digit_not_whitespace c h.1]

/-- `(String.mk cs).data = cs` -/
theorem mk_data (cs : List Char) : (String.mk cs).data = cs := rfl

/-- Stripping an all-digit string is the identity. -/
theorem pyStrip_of_digits (cs : List Char) (h : cs.all Char.isDigit = true) :
    pyStrip (String.mk cs) = String.mk cs := by
  unfold pyStrip
  rw [mk_data, dropWhile_whitespace_of_digits cs h,
    dropWhile_whitespace_of_digits cs.reverse (by simpa using h), List.reverse_reverse]

/-- A value that is a non-finite float (`nan`, `inf` or `-inf`). -/
def PyVal.isNonFiniteFloat : PyVal → Bool
  | .float .nan => true
  | .float .inf => true
  | .float .ninf => true
  | _ => false

/-! ## Example fixtures used by the concrete runs below -/

/-- Credentials configured. -/
def cfgOn : KvConfig := ⟨some "https://kv.example", some "token"⟩

/-- No credentials configured. -/
def cfgOff : KvConfig := ⟨Option.none, Option.none⟩

/-- An extractor that always fails (`extract_info` raising). -/
def oracleNone : String → Option PyVal := fun _ => Option.none

/-- An extractor that always returns a one-field metadata blob. -/
def oracleTitleX : String → Option PyVal := fun _ => some (.dict [("title", .str "X")])

/-! ## C7 — `coerce_epoch_seconds` totality -/

/-- C7: the claim says `coerce_epoch_seconds` returns an integer or `None`
and never raises, for every input including non-finite floats.  The code
contradicts this (and its own stated error-handling design) exactly on the
non-finite floats: `int(float("nan"))` raises an uncaught `ValueError` (and
`inf`, via `inf // 1000 == nan`, likewise; `int(float("-inf"))` raises
`OverflowError`).  On every other value the function is total. -/
theorem c7_coerce_raises_on_nonfinite_floats :
    coerce_epoch_seconds (.float .nan) = .error .valueError ∧
    coerce_epoch_seconds (.float .inf) = .error .valueError ∧
    coerce_epoch_seconds (.float .ninf) = .error .overflowError ∧
    ∀ v : PyVal, (∃ r, coerce_epoch_seconds v = .ok r) ∨ v.isNonFiniteFloat = true := by
  refine ⟨rfl, rfl, rfl, ?_⟩
  intro v
  cases v with
  | float f =>
    cases f with
    | nan => exact Or.inr rfl
    | inf => exact Or.inr rfl
    | ninf => exact Or.inr rfl
    | finite m e => exact Or.inl ⟨_, rfl⟩
  | none => exact Or.inl ⟨_, rfl⟩
  | bool b => exact Or.inl ⟨_, rfl⟩
  | int n => exact Or.inl ⟨_, rfl⟩
  | str s => exact Or.inl ⟨_, rfl⟩
  | list xs => exact Or.inl ⟨_, rfl⟩
  | dict kvs => exact Or.inl ⟨_, rfl⟩

/-! ## C8 — all-digit strings -/

/-- C8 as stated is wrong about the 8-digit failure case: an 8-digit string
that does not parse as a calendar date falls back to the *raw integer*, not
to `None` — the caught `ValueError` just falls through to
`return numeric_value`. -/
theorem c8_counterexample :
    coerce_epoch_seconds (.str "99999999") = .ok (some 99999999) ∧
    coerce_epoch_seconds (.str "99999999") ≠ .ok Option.none := by
  constructor
  · rfl
  · intro h
    have h2 : (Except.ok (some (99999999 : ℤ)) : Except PyErr (Option ℤ)) =
        .ok Option.none := h
    exact absurd h2 (by simp)

/-- C8 (amended): for a nonempty all-digit string, exactly 13 digits are
treated as milliseconds and floor-divided by 1000; exactly 8 digits are
parsed as `YYYYMMDD` at UTC midnight, with an invalid calendar date falling
back to the raw integer (not to `None`); any other length is the raw
integer. -/
theorem c8_digit_strings (cs : List Char) (hne : cs ≠ [])
    (hdig : cs.all Char.isDigit = true) :
    coerce_epoch_seconds (.str (String.mk cs)) =
      .ok (some (if cs.length = 13 then (digitsToNat cs : ℤ) / 1000
        else if cs.length = 8 then ((parseYYYYMMDD cs).getD (digitsToNat cs : ℤ))
        else (digitsToNat cs : ℤ))) := by
  show (Except.ok (coerceEpochStr (String.mk cs)) : Except PyErr (Option ℤ)) = _
  unfold coerceEpochStr
  rw [pyStrip_of_digits cs hdig]
  have hne' : ¬ (String.mk cs = "") := by
    intro h'
    exact hne (congrArg String.data h')
  rw [if_neg hne']
  have hdig' : pyIsDigit (String.mk cs) = true := by
    simp [pyIsDigit, mk_data, hdig, List.isEmpty_iff, hne]
  rw [if_pos hdig', mk_data]
  by_cases h13 : cs.length = 13
  · simp [h13]
  · rw [if_neg h13, if_neg h13]
    by_cases h8 : cs.length = 8
    · rw [if_pos h8, if_pos h8]
      cases hp : parseYYYYMMDD cs <;> simp [hp]
    · rw [if_neg h8, if_neg h8]

/-- Witness: the spec's own anchor — `"20230115"` coerces to the epoch
seconds of 2023-01-15T00:00:00Z. -/
theorem c8_digit_strings_witness :
    coerce_epoch_seconds (.str "20230115") = .ok (some 1673740800) :=
  c8_digit_strings "20230115".data (by decide) (by decide)

/-! ## C2 — the refresh decision -/

/-- C2 as stated is wrong about the value 0: the staleness comparison is a
Python `and` chain over the two watermarks, so a watermark equal to `0` is
*falsy* and disables the comparison.  Concretely, with version-matched cached
metadata, a cached watermark of `0` and an entry signal of `5`, the code
decides *no* refresh although the claim ("present, including the value 0,
and strictly greater") demands one. -/
theorem c2_counterexample :
    needsRefresh (.dict [("title", .str "T")]) (some 5) (some 0) = false ∧
    (PyVal.dict [("title", .str "T")]).isNone = false ∧
    ((0 : ℤ) < 5 ∧ (some (0 : ℤ)).isSome = true ∧ (some (5 : ℤ)).isSome = true) := by
  exact ⟨rfl, rfl, by norm_num, rfl, rfl⟩

/-- C2 (amended): a refresh is decided necessary if and only if there is no
version-matched cached metadata, or both watermarks are present *and
nonzero* and the entry's signal is strictly greater than the cached
watermark. -/
theorem c2_needs_refresh_iff (metadata : PyVal) (elm clm : Option ℤ) :
    needsRefresh metadata elm clm = true ↔
      (metadata.isNone = true ∨
        ∃ a b, elm = some a ∧ clm = some b ∧ a ≠ 0 ∧ b ≠ 0 ∧ b < a) := by
  unfold needsRefresh
  cases elm with
  | none =>
    cases clm <;> simp
  | some a =>
    cases clm with
    | none => simp
    | some b =>
      by_cases hm : metadata.isNone <;> simp [hm, and_assoc]

/-! ## C3 — first-seen write-once -/

/-- C3 as stated is wrong about the store primitives: a second
`set_first_seen` with a different value *does* change the value observed by
a fresh `get_first_seen` — the `POST /set` overwrites unconditionally.
Concretely, `set(f,t,100); set(f,t,200); get(f,t)` returns `200`, not
`100`. -/
theorem c3_counterexample :
    (let s1 := (set_track_first_seen_time cfgOn [] "f" (.str "t") 100).2.1
     let s2 := (set_track_first_seen_time cfgOn s1 "f" (.str "t") 200).2.1
     (get_track_first_seen_time cfgOn s2 "f" (.str "t")).1) = some 200 ∧
    some (200 : ℤ) ≠ some (100 : ℤ) := by
  exact ⟨rfl, by simp⟩

/-- C3 (amended): write-once is enforced only by the hydration/render path's
read-before-write gate, not by the store.  Whenever a first-seen record
already exists (and coerces to an integer), the gate returns it, leaves the
store unchanged, and performs exactly one read and no write — so a value,
once written, is what every later gated read observes; `set` followed by
`get` does return the stored value, and a gate-miss write is observed
unchanged by the next gate pass. -/
theorem c3_write_once_via_gate :
    (∀ (cfg : KvConfig) (store : Store) (feed : String) (item : PyVal) (now : ℤ)
        (sv : PyVal) (v : ℤ),
      envTruthy cfg.url = true → envTruthy cfg.token = true →
      pyTruthy (gateTrackId item) = true →
      dGet store (encode_kv_key (get_kv_key feed (pyStrOf (gateTrackId item)))) = some sv →
      coerceKvTimestamp sv = .ok (some v) →
      firstSeenPubDateGate cfg store feed item now =
        (v, store,
          [.kvGet (encode_kv_key (get_kv_key feed (pyStrOf (gateTrackId item))))])) ∧
    ((let s1 := (set_track_first_seen_time cfgOn [] "f" (.str "t") 100).2.1
      ((get_track_first_seen_time cfgOn s1 "f" (.str "t")).1,
       (get_track_first_seen_time cfgOn s1 "f" (.str "t")).1)) =
      (some 100, some 100)) ∧
    (firstSeenPubDateGate cfgOn
        (firstSeenPubDateGate cfgOn [] "f" (.dict [("id", .str "t")]) 500).2.1
        "f" (.dict [("id", .str "t")]) 900 =
      (500, [("feed%3Af%3Atrack%3At", .str "500")], [.kvGet "feed%3Af%3Atrack%3At"])) := by
  refine ⟨?_, rfl, rfl⟩
  intro cfg store feed item now sv v hu ht htid hstore hcoerce
  unfold firstSeenPubDateGate get_track_first_seen_time
  simp only [htid, if_true, hu, ht, not_true, or_self, if_false, hstore, hcoerce]

/-- Witness for the gate property: a stored `"100"` is returned unchanged by
the gate (no overwrite, one read, no write). -/
theorem c3_write_once_via_gate_witness :
    firstSeenPubDateGate cfgOn [("feed%3Af%3Atrack%3At", .str "100")] "f"
        (.dict [("id", .str "t")]) 900 =
      (100, [("feed%3Af%3Atrack%3At", .str "100")], [.kvGet "feed%3Af%3Atrack%3At"]) :=
  c3_write_once_via_gate.1 cfgOn [("feed%3Af%3Atrack%3At", .str "100")] "f"
    (.dict [("id", .str "t")]) 900 (.str "100") 100 rfl rfl rfl rfl rfl

/-! ## C4 — sanitization invariants -/

/-- A key admitted by the sanitization allow-list. -/
def keyAllowed (kv : String × PyVal) : Bool := TRACK_METADATA_FIELDS.contains kv.1

/-- A reduced thumbnail: a dict with keys among `id`/`url` and a truthy
`url`. -/
def thumbClean (t : PyVal) : Bool :=
  match t with
  | .dict tk =>
    tk.all (fun kv => kv.1 = "id" ∨ kv.1 = "url") &&
      (match dGet tk "url" with | some u => pyTruthy u | Option.none => false)
  | _ => false

/-- The `duration` entry of a sanitized payload, when present, is an
integer. -/
def durOk (r : List (String × PyVal)) : Bool :=
  match dGet r "duration" with
  | some (.int _) => true
  | some _ => false
  | Option.none => true

/-- The `thumbnails` entry of a sanitized payload, when present, is a list
of reduced thumbnails. -/
def thumbsOk (r : List (String × PyVal)) : Bool :=
  match dGet r "thumbnails" with
  | some (.list cs) => cs.all thumbClean
  | some _ => false
  | Option.none => true

theorem all_dSet (P : String × PyVal → Bool) (acc : List (String × PyVal))
    (k : String) (v : PyVal) (h1 : acc.all P = true) (h2 : P (k, v) = true) :
    (dSet acc k v).all P = true := by
  induction acc with
  | nil => simpa [dSet]
  | cons kv rest ih =>
    obtain ⟨k₀, v₀⟩ := kv
    simp only [List.all_cons, Bool.and_eq_true] at h1
    by_cases h : k₀ = k
    · subst h
      simp [dSet, h2, h1.2]
    · simp [dSet, h, h1.1, ih h1.2]

theorem cleanThumbnails_all_clean (ts : List PyVal) :
    (cleanThumbnails ts).all thumbClean = true := by
  induction ts with
  | nil => rfl
  | cons t rest ih =>
    unfold cleanThumbnails at ih ⊢
    cases t with
    | dict tkvs =>
      by_cases hu : pyTruthy (dGetPy tkvs "url") = true
      · simp only [List.filterMap_cons, hu, if_pos]
        rw [List.all_cons]
        refine (Bool.and_eq_true _ _).mpr ⟨?_, ih⟩
        have hnn : (dGetPy tkvs "url").isNone = false := by
          cases hx : dGetPy tkvs "url" <;> simp_all [pyTruthy, PyVal.isNone]
        cases hid : (dGetPy tkvs "id").isNone <;>
          simp [thumbClean, hid, hnn, List.filter, dGet, hu]
      · simp only [List.filterMap_cons, hu]
        simpa using ih
    | none => simpa using ih
    | bool b => simpa using ih
    | int n => simpa using ih
    | float f => simpa using ih
    | str s => simpa using ih
    | list xs => simpa using ih

theorem durOk_dSet_ne (acc : List (String × PyVal)) (k : String) (v : PyVal)
    (h : k ≠ "duration") (ha : durOk acc = true) : durOk (dSet acc k v) = true := by
  unfold durOk at ha ⊢
  rw [dGet_dSet_ne _ _ _ _ (Ne.symm h)]
  exact ha

theorem thumbsOk_dSet_ne (acc : List (String × PyVal)) (k : String) (v : PyVal)
    (h : k ≠ "thumbnails") (ha : thumbsOk acc = true) : thumbsOk (dSet acc k v) = true := by
  unfold thumbsOk at ha ⊢
  rw [dGet_dSet_ne _ _ _ _ (Ne.symm h)]
  exact ha

/-- Invariant of the sanitization loop: keys stay inside the allow-list and
`duration` stays an integer. -/
theorem sanitizeFields_inv (raw : List (String × PyVal)) :
    ∀ (fields : List String) (acc r : List (String × PyVal)),
    fields.all (fun f => TRACK_METADATA_FIELDS.contains f) = true →
    acc.all keyAllowed = true → durOk acc = true →
    sanitizeFields raw fields acc = .ok r →
    r.all keyAllowed = true ∧ durOk r = true := by
  intro fields
  induction fields with
  | nil =>
    intro acc r _ ha1 ha2 h
    unfold sanitizeFields at h
    cases h
    exact ⟨ha1, ha2⟩
  | cons field rest ih =>
    intro acc r hf ha1 ha2 h
    simp only [List.all_cons, Bool.and_eq_true] at hf
    unfold sanitizeFields at h
    cases hv : dGet raw field with
    | none =>
      simp only [hv] at h
      exact ih acc r hf.2 ha1 ha2 h
    | some value =>
      simp only [hv] at h
      by_cases hn : value.isNone = true
      · rw [if_pos hn] at h
        exact ih acc r hf.2 ha1 ha2 h
      · rw [if_neg hn] at h
        by_cases hd : field = "duration"
        · rw [if_pos hd] at h
          cases hi : pyInt value with
          | ok n =>
            simp only [hi] at h
            refine ih _ r hf.2 ?_ ?_ h
            · exact all_dSet _ _ _ _ ha1 (by simp only [keyAllowed, hd]; decide)
            · subst hd
              unfold durOk
              rw [dGet_dSet_self]
          | error e =>
            simp only [hi] at h
            cases e with
            | typeError => exact ih acc r hf.2 ha1 ha2 h
            | valueError => exact ih acc r hf.2 ha1 ha2 h
            | overflowError => cases h
            | attributeError => cases h
        · rw [if_neg hd] at h
          by_cases hth : field = "thumbnails" ∧ value.isList = true
          · rw [if_pos hth] at h
            obtain ⟨hth1, hth2⟩ := hth
            cases value with
            | list thumbs =>
              simp only [] at h
              by_cases hcl : (cleanThumbnails thumbs).isEmpty = true
              · rw [if_neg (not_not_intro hcl)] at h
                exact ih acc r hf.2 ha1 ha2 h
              · rw [if_pos hcl] at h
                refine ih _ r hf.2 ?_ ?_ h
                · exact all_dSet _ _ _ _ ha1 (by simp only [keyAllowed, hth1]; decide)
                · exact durOk_dSet_ne _ _ _ (by simp [hth1]) ha2
            | none => simp [PyVal.isList] at hth2
            | bool b => simp [PyVal.isList] at hth2
            | int n => simp [PyVal.isList] at hth2
            | float f => simp [PyVal.isList] at hth2
            | str s => simp [PyVal.isList] at hth2
            | dict kvs => simp [PyVal.isList] at hth2
          · rw [if_neg hth] at h
            refine ih _ r hf.2 ?_ ?_ h
            · exact all_dSet _ _ _ _ ha1 (by simpa [keyAllowed] using hf.1)
            · exact durOk_dSet_ne _ _ _ hd ha2

/-- Invariant of the sanitization loop for `thumbnails`, when the raw value
under that key is a list. -/
theorem sanitizeFields_thumbs (raw : List (String × PyVal)) (ts : List PyVal)
    (hraw : dGet raw "thumbnails" = some (.list ts)) :
    ∀ (fields : List String) (acc r : List (String × PyVal)),
    thumbsOk acc = true →
    sanitizeFields raw fields acc = .ok r →
    thumbsOk r = true := by
  intro fields
  induction fields with
  | nil =>
    intro acc r ha h
    unfold sanitizeFields at h
    cases h
    exact ha
  | cons field rest ih =>
    intro acc r ha h
    unfold sanitizeFields at h
    by_cases hth : field = "thumbnails"
    · subst hth
      simp only [hraw] at h
      simp only [PyVal.isNone, Bool.false_eq_true, if_neg, if_false] at h
      rw [if_neg (by simp)] at h
      rw [if_pos (by simp [PyVal.isList])] at h
      by_cases hcl : (cleanThumbnails ts).isEmpty = true
      · rw [if_neg (not_not_intro hcl)] at h
        exact ih acc r ha h
      · rw [if_pos hcl] at h
        refine ih _ r ?_ h
        unfold thumbsOk
        rw [dGet_dSet_self]
        exact cleanThumbnails_all_clean ts
    · cases hv : dGet raw field with
      | none =>
        simp only [hv] at h
        exact ih acc r ha h
      | some value =>
        simp only [hv] at h
        by_cases hn : value.isNone = true
        · rw [if_pos hn] at h
          exact ih acc r ha h
        · rw [if_neg hn] at h
          by_cases hd : field = "duration"
          · rw [if_pos hd] at h
            cases hi : pyInt value with
            | ok n =>
              simp only [hi] at h
              exact ih _ r (thumbsOk_dSet_ne _ _ _ (by simp [hd]) ha) h
            | error e =>
              simp only [hi] at h
              cases e with
              | typeError => exact ih acc r ha h
              | valueError => exact ih acc r ha h
              | overflowError => cases h
              | attributeError => cases h
          · rw [if_neg hd] at h
            rw [if_neg (by simp [hth])] at h
            exact ih _ r (thumbsOk_dSet_ne _ _ _ hth ha) h

/-- Inverting `sanitize_track_metadata` on a successful, non-`None`
result. -/
theorem sanitize_inversion (raw r : List (String × PyVal))
    (h : sanitize_track_metadata (.dict raw) = .ok (some (.dict r))) :
    ∃ s, sanitizeFields raw TRACK_METADATA_FIELDS [] = .ok s ∧
      r = (if (dGet s "webpage_url").isNone ∧ pyTruthy (dGetPy raw "url") then
        dSet s "webpage_url" (dGetPy raw "url") else s) ∧
      r.isEmpty = false := by
  have h' : (sanitizeFields raw TRACK_METADATA_FIELDS [] >>= fun sanitized =>
      (pure
        (if (if (dGet sanitized "webpage_url").isNone ∧ pyTruthy (dGetPy raw "url") then
              dSet sanitized "webpage_url" (dGetPy raw "url") else sanitized).isEmpty then
          Option.none
        else some (.dict (if (dGet sanitized "webpage_url").isNone ∧
              pyTruthy (dGetPy raw "url") then
            dSet sanitized "webpage_url" (dGetPy raw "url") else sanitized))) :
        Except PyErr (Option PyVal))) = .ok (some (.dict r)) := h
  obtain ⟨s, hs, hpure⟩ := except_bind_ok.mp h'
  refine ⟨s, hs, ?_⟩
  set s' := (if (dGet s "webpage_url").isNone ∧ pyTruthy (dGetPy raw "url") then
    dSet s "webpage_url" (dGetPy raw "url") else s) with hs'
  simp only [pure, Except.pure, ← hs'] at hpure
  by_cases he : s'.isEmpty = true
  · rw [if_pos he] at hpure
    cases hpure
  · rw [if_neg he] at hpure
    simp only [pure, Except.pure, Except.ok.injEq, Option.some.injEq,
      PyVal.dict.injEq] at hpure
    exact ⟨hpure.symm, by rw [← hpure]; simpa using he⟩

/-- C4 as stated is wrong about non-list `thumbnails`: the reduction to
`{id, url}` pairs only runs when the raw value is a `list`; any other truthy
`thumbnails` value falls through to the generic copy and is stored
verbatim. -/
theorem c4_counterexample :
    sanitize_track_metadata (.dict [("thumbnails", .str "junk")]) =
      .ok (some (.dict [("thumbnails", .str "junk")])) ∧
    thumbClean (.str "junk") = false ∧ (PyVal.str "junk").isList = false := by
  exact ⟨rfl, rfl, rfl⟩

/-- C4 (amended): whenever sanitization returns a payload, every key belongs
to the 12-field allow-list, `duration` (if present) is an integer, the
payload is non-empty (an empty result is returned as `None` instead), and a
*list*-valued raw `thumbnails` is reduced to `{id, url}` pairs with truthy
`url` — a non-list `thumbnails` is copied through unchanged (see the
counterexample), and an infinite-float `duration` makes `int()` raise an
uncaught `OverflowError` instead of being dropped.  A `None` payload is
never stored: `set_track_metadata` refuses it without a store call. -/
theorem c4_sanitize_invariants (raw r : List (String × PyVal)) (ts : List PyVal)
    (cfg : KvConfig) (store : Store) (tid : PyVal)
    (h : sanitize_track_metadata (.dict raw) = .ok (some (.dict r))) :
    r.all keyAllowed = true ∧ durOk r = true ∧ r.isEmpty = false ∧
    (dGet raw "thumbnails" = some (.list ts) → thumbsOk r = true) ∧
    set_track_metadata cfg store tid .none = (false, store, []) := by
  obtain ⟨s, hs, hr, hne⟩ := sanitize_inversion raw r h
  have base := sanitizeFields_inv raw TRACK_METADATA_FIELDS [] s (by decide) rfl rfl hs
  have hkeys : r.all keyAllowed = true := by
    rw [hr]
    by_cases hc : (dGet s "webpage_url").isNone = true ∧ pyTruthy (dGetPy raw "url") = true
    · rw [if_pos hc]
      exact all_dSet _ _ _ _ base.1 (by simp only [keyAllowed]; decide)
    · rw [if_neg hc]
      exact base.1
  have hdur : durOk r = true := by
    rw [hr]
    by_cases hc : (dGet s "webpage_url").isNone = true ∧ pyTruthy (dGetPy raw "url") = true
    · rw [if_pos hc]
      exact durOk_dSet_ne _ _ _ (by simp) base.2
    · rw [if_neg hc]
      exact base.2
  refine ⟨hkeys, hdur, hne, ?_, ?_⟩
  · intro hraw
    have hthumbs := sanitizeFields_thumbs raw ts hraw TRACK_METADATA_FIELDS [] s rfl hs
    rw [hr]
    by_cases hc : (dGet s "webpage_url").isNone = true ∧ pyTruthy (dGetPy raw "url") = true
    · rw [if_pos hc]
      exact thumbsOk_dSet_ne _ _ _ (by simp) hthumbs
    · rw [if_neg hc]
      exact hthumbs
  · unfold set_track_metadata
    rw [if_pos (by simp [pyTruthy])]

/-- Witness: a raw blob with an unlisted field, a string duration and a
mixed thumbnail list sanitizes to an allow-listed, integer-duration,
reduced-thumbnail payload; a `None` payload is not stored. -/
theorem c4_sanitize_invariants_witness :
    ([("title", PyVal.str "T"), ("duration", PyVal.int 12),
      ("thumbnails", PyVal.list [.dict [("id", .str "original"), ("url", .str "u")]])].all
        keyAllowed = true) ∧
    durOk [("title", PyVal.str "T"), ("duration", PyVal.int 12),
      ("thumbnails", PyVal.list [.dict [("id", .str "original"), ("url", .str "u")]])] = true ∧
    List.isEmpty [("title", PyVal.str "T"), ("duration", PyVal.int 12),
      ("thumbnails", PyVal.list [.dict [("id", .str "original"), ("url", .str "u")]])] = false ∧
    (dGet [("title", PyVal.str "T"), ("secret", PyVal.str "s"), ("duration", PyVal.str "12"),
        ("thumbnails", PyVal.list [.dict [("id", .str "original"), ("url", .str "u"), ("w", .int 3)],
          .dict [("url", .str "")]])] "thumbnails" =
        some (.list [.dict [("id", .str "original"), ("url", .str "u"), ("w", .int 3)],
          .dict [("url", .str "")]]) →
      thumbsOk [("title", PyVal.str "T"), ("duration", PyVal.int 12),
        ("thumbnails", PyVal.list [.dict [("id", .str "original"), ("url", .str "u")]])] = true) ∧
    set_track_metadata cfgOn [] (.str "id1") .none = (false, [], []) :=
  c4_sanitize_invariants
    [("title", PyVal.str "T"), ("secret", PyVal.str "s"), ("duration", PyVal.str "12"),
      ("thumbnails", PyVal.list [.dict [("id", .str "original"), ("url", .str "u"), ("w", .int 3)],
        .dict [("url", .str "")]])]
    [("title", PyVal.str "T"), ("duration", PyVal.int 12),
      ("thumbnails", PyVal.list [.dict [("id", .str "original"), ("url", .str "u")]])]
    [.dict [("id", .str "original"), ("url", .str "u"), ("w", .int 3)], .dict [("url", .str "")]]
    cfgOn [] (.str "id1") rfl

/-! ## C6 — normalizer defaults -/

theorem applyTitleUploader_title (m : List (String × PyVal))
    (h1 : dGet m "title" = Option.none) (h2 : dGet m "name" = Option.none) :
    dGet (applyTitleUploader m) "title" = some (.str "Unknown Title") := by
  unfold applyTitleUploader
  rw [dGet_dSetdefault_ne _ _ _ _ (by simp)]
  have : pyOr (dGetPy m "name") (.str "Unknown Title") = .str "Unknown Title" := by
    simp [dGetPy, h2, pyOr, pyTruthy]
  rw [this]
  exact dGet_dSetdefault_of_none _ _ _ h1

theorem applyTitleUploader_uploader (m : List (String × PyVal))
    (h : dGet m "uploader" = Option.none) :
    dGet (applyTitleUploader m) "uploader" = some (.str "Unknown Artist") := by
  unfold applyTitleUploader
  refine dGet_dSetdefault_of_none _ _ _ ?_
  rw [dGet_dSetdefault_ne _ _ _ _ (by simp)]
  exact h

theorem applyTitleUploader_preserves (m : List (String × PyVal)) (k : String)
    (h1 : k ≠ "title") (h2 : k ≠ "uploader") :
    dGet (applyTitleUploader m) k = dGet m k := by
  unfold applyTitleUploader
  rw [dGet_dSetdefault_ne _ _ _ _ h2, dGet_dSetdefault_ne _ _ _ _ h1]

theorem applyTrackUrl_preserves (entry : PyVal) (m m' : List (String × PyVal))
    (h : applyTrackUrl entry m = .ok m') (k : String) (hk : k ≠ "webpage_url") :
    dGet m' k = dGet m k := by
  unfold applyTrackUrl at h
  cases hres : resolvedTrackUrl entry m with
  | ok u =>
    simp only [hres] at h
    split at h
    · cases h
      exact dGet_dSet_ne _ _ _ _ hk
    · cases h
      rfl
  | error e =>
    simp only [hres] at h
    cases h

theorem applyDuration_shape (m m' : List (String × PyVal))
    (h : applyDuration m = .ok m') : ∃ v, m' = dSet m "duration" v := by
  unfold applyDuration at h
  repeat' split at h
  all_goals first
    | (cases h; exact ⟨_, rfl⟩)
    | cases h

theorem applyDuration_of_absent (m : List (String × PyVal))
    (h : dGet m "duration" = Option.none) :
    applyDuration m = .ok (dSet m "duration" (.int 0)) := by
  unfold applyDuration
  simp only [dGetPy, h, Option.getD]

theorem applyTimestamp_shape (m m' : List (String × PyVal))
    (h : applyTimestamp m = .ok m') : m' = m ∨ ∃ v, m' = dSet m "timestamp" v := by
  unfold applyTimestamp at h
  obtain ⟨r, _, hf⟩ := except_bind_ok.mp h
  cases r with
  | some t =>
    cases hf
    exact Or.inr ⟨_, rfl⟩
  | none =>
    cases hf
    exact Or.inl rfl

theorem applyDescription_preserves (m : List (String × PyVal)) (k : String)
    (hk : k ≠ "description") : dGet (applyDescription m) k = dGet m k := by
  unfold applyDescription
  split
  · exact dGet_dSet_ne _ _ _ _ hk
  · rfl
  · exact dGet_dSet_ne _ _ _ _ hk

theorem applyDescription_of_absent (m : List (String × PyVal))
    (h : dGet m "description" = Option.none) :
    dGet (applyDescription m) "description" = some (.str "") := by
  unfold applyDescription
  simp only [dGetPy, h, Option.getD]
  exact dGet_dSet_self _ _ _

/-- C6 as stated is wrong about the non-null guarantee: the defaults are
applied with `setdefault`, which only fires when the key is *absent*.  An
entry that carries an explicit `title: None` (as flat extractor entries can)
passes through hydration with its title still `None`. -/
theorem c6_counterexample :
    hydrate_track_entries cfgOff oracleNone 0 [] [.dict [("title", PyVal.none)]] 0 =
      .ok ([.dict [("title", PyVal.none), ("uploader", .str "Unknown Artist"),
        ("duration", .int 0), ("description", .str "")]], ⟨[], 0⟩, []) ∧
    (PyVal.none).isNone = true := by
  exact ⟨rfl, rfl⟩

/-- C6 (amended): the defaulting guarantee holds for *absent* fields: an
entry without `title`/`name`/`uploader`/`duration`/`description` keys merges
(with no metadata) to `title "Unknown Title"`, `uploader "Unknown Artist"`,
`duration 0`, `description ""`.  Fields present with a `None` value are kept
as-is (see the counterexample), and `timestamp`/`webpage_url` are only set
when derivable. -/
theorem c6_normalizer_defaults (kvs m : List (String × PyVal))
    (h1 : dGet kvs "title" = Option.none) (h2 : dGet kvs "name" = Option.none)
    (h3 : dGet kvs "uploader" = Option.none) (h4 : dGet kvs "duration" = Option.none)
    (h5 : dGet kvs "description" = Option.none)
    (h : merge_entry_with_metadata (.dict kvs) .none = .ok (.dict m)) :
    dGet m "title" = some (.str "Unknown Title") ∧
    dGet m "uploader" = some (.str "Unknown Artist") ∧
    dGet m "duration" = some (.int 0) ∧
    dGet m "description" = some (.str "") := by
  have h' : ((applyTrackUrl (.dict kvs) (applyTitleUploader kvs) >>= fun m3 =>
      applyDuration m3 >>= fun m4 => applyTimestamp m4 >>= fun m5 =>
      pure (.dict (applyDescription m5))) : Except PyErr PyVal) = .ok (.dict m) := h
  obtain ⟨m3, hm3, h'⟩ := except_bind_ok.mp h'
  obtain ⟨m4, hm4, h'⟩ := except_bind_ok.mp h'
  obtain ⟨m5, hm5, hfin⟩ := except_bind_ok.mp h'
  have hm : m = applyDescription m5 := by
    cases hfin
    rfl
  -- facts after the title/uploader stage
  have a_title := applyTitleUploader_title kvs h1 h2
  have a_upl := applyTitleUploader_uploader kvs h3
  have a_dur : dGet (applyTitleUploader kvs) "duration" = Option.none := by
    rw [applyTitleUploader_preserves _ _ (by simp) (by simp)]
    exact h4
  have a_desc : dGet (applyTitleUploader kvs) "description" = Option.none := by
    rw [applyTitleUploader_preserves _ _ (by simp) (by simp)]
    exact h5
  -- transported through the URL stage
  have b_title := (applyTrackUrl_preserves _ _ _ hm3 "title" (by simp)).trans a_title
  have b_upl := (applyTrackUrl_preserves _ _ _ hm3 "uploader" (by simp)).trans a_upl
  have b_dur := (applyTrackUrl_preserves _ _ _ hm3 "duration" (by simp)).trans a_dur
  have b_desc := (applyTrackUrl_preserves _ _ _ hm3 "description" (by simp)).trans a_desc
  -- the duration stage sets 0
  have hm4' : m4 = dSet m3 "duration" (.int 0) := by
    rw [applyDuration_of_absent m3 b_dur] at hm4
    cases hm4
    rfl
  have c_title : dGet m4 "title" = some (.str "Unknown Title") := by
    rw [hm4', dGet_dSet_ne _ _ _ _ (by simp)]
    exact b_title
  have c_upl : dGet m4 "uploader" = some (.str "Unknown Artist") := by
    rw [hm4', dGet_dSet_ne _ _ _ _ (by simp)]
    exact b_upl
  have c_dur : dGet m4 "duration" = some (.int 0) := by
    rw [hm4']
    exact dGet_dSet_self _ _ _
  have c_desc : dGet m4 "description" = Option.none := by
    rw [hm4', dGet_dSet_ne _ _ _ _ (by simp)]
    exact b_desc
  -- the timestamp stage does not touch these keys
  have dstep : ∀ k : String, k ≠ "timestamp" → dGet m5 k = dGet m4 k := by
    intro k hk
    rcases applyTimestamp_shape m4 m5 hm5 with h | ⟨v, hv⟩
    · rw [h]
    · rw [hv, dGet_dSet_ne _ _ _ _ hk]
  refine ⟨?_, ?_, ?_, ?_⟩
  · rw [hm, applyDescription_preserves _ _ (by simp), dstep "title" (by simp)]
    exact c_title
  · rw [hm, applyDescription_preserves _ _ (by simp), dstep "uploader" (by simp)]
    exact c_upl
  · rw [hm, applyDescription_preserves _ _ (by simp), dstep "duration" (by simp)]
    exact c_dur
  · rw [hm]
    refine applyDescription_of_absent m5 ?_
    rw [dstep "description" (by simp)]
    exact c_desc

/-- Witness: the empty flat entry gets all four defaults. -/
theorem c6_normalizer_defaults_witness :
    dGet [("title", PyVal.str "Unknown Title"), ("uploader", PyVal.str "Unknown Artist"),
      ("duration", PyVal.int 0), ("description", PyVal.str "")] "title" =
        some (.str "Unknown Title") ∧
    dGet [("title", PyVal.str "Unknown Title"), ("uploader", PyVal.str "Unknown Artist"),
      ("duration", PyVal.int 0), ("description", PyVal.str "")] "uploader" =
        some (.str "Unknown Artist") ∧
    dGet [("title", PyVal.str "Unknown Title"), ("uploader", PyVal.str "Unknown Artist"),
      ("duration", PyVal.int 0), ("description", PyVal.str "")] "duration" =
        some (.int 0) ∧
    dGet [("title", PyVal.str "Unknown Title"), ("uploader", PyVal.str "Unknown Artist"),
      ("duration", PyVal.int 0), ("description", PyVal.str "")] "description" =
        some (.str "") :=
  c6_normalizer_defaults [] _ rfl rfl rfl rfl rfl rfl

/-! ## Hydration run lemmas -/

theorem get_track_metadata_unavailable (cfg : KvConfig) (store : Store) (tid : PyVal)
    (h : vercel_kv_available cfg = false) :
    get_track_metadata cfg store tid = (.none, []) := by
  unfold get_track_metadata
  rw [if_pos (Or.inl (by simp [h]))]

theorem set_track_metadata_unavailable (cfg : KvConfig) (store : Store)
    (tid payload : PyVal) (h : vercel_kv_available cfg = false) :
    set_track_metadata cfg store tid payload = (false, store, []) := by
  unfold set_track_metadata
  rw [if_pos (Or.inl (by simp [h]))]

theorem set_track_metadata_countFetch (cfg : KvConfig) (store : Store)
    (tid payload : PyVal) :
    countFetch (set_track_metadata cfg store tid payload).2.2 = 0 := by
  unfold set_track_metadata
  split <;> rfl

theorem set_track_metadata_noKvOps_unavailable (cfg : KvConfig) (store : Store)
    (tid payload : PyVal) (h : vercel_kv_available cfg = false) :
    noKvOps (set_track_metadata cfg store tid payload).2.2 = true := by
  rw [set_track_metadata_unavailable cfg store tid payload h]
  rfl

theorem fetch_track_metadata_countFetch (oracle : String → Option PyVal)
    (url : Option String) :
    countFetch (fetch_track_metadata oracle url).2 ≤ 1 := by
  cases url with
  | none => simp [fetch_track_metadata, countFetch]
  | some u =>
    unfold fetch_track_metadata
    cases ho : oracle u <;> simp [ho, countFetch]

theorem fetch_track_metadata_noKvOps (oracle : String → Option PyVal)
    (url : Option String) :
    noKvOps (fetch_track_metadata oracle url).2 = true := by
  cases url with
  | none => rfl
  | some u =>
    unfold fetch_track_metadata
    cases ho : oracle u <;> simp [ho, noKvOps]

theorem fetch_track_metadata_some (oracle : String → Option PyVal) (u : String) :
    (fetch_track_metadata oracle (some u)).2 = [.fetch u] := by
  unfold fetch_track_metadata
  cases ho : oracle u <;> simp [ho]

theorem fetch_track_metadata_fail (oracle : String → Option PyVal) (u : String)
    (h : oracle u = Option.none) :
    fetch_track_metadata oracle (some u) = (Option.none, [.fetch u]) := by
  simp only [fetch_track_metadata, h]

theorem cacheLookup_countFetch (cfg : KvConfig) (store : Store) (tid : PyVal) :
    countFetch (cacheLookup cfg store tid).2 = 0 := by
  unfold cacheLookup get_track_metadata
  split
  · split <;> rfl
  · rfl

theorem cacheLookup_noKvOps_unavailable (cfg : KvConfig) (store : Store) (tid : PyVal)
    (h : vercel_kv_available cfg = false) :
    cacheLookup cfg store tid = (.none, []) := by
  unfold cacheLookup
  rw [get_track_metadata_unavailable cfg store tid h]
  split <;> rfl

theorem cacheLookup_no_id (cfg : KvConfig) (store : Store) (tid : PyVal)
    (h : pyTruthy tid = false) : cacheLookup cfg store tid = (.none, []) := by
  unfold cacheLookup
  rw [if_neg (by simp [h])]

/-- Accounting for one refresh attempt: either the branch was not taken (no
budget change, no operation), or the budget went down by exactly one and at
most one expensive fetch happened. -/
theorem refreshPhase_accounting {cfg : KvConfig} {oracle : String → Option PyVal}
    {now : ℤ} {store : Store} {budget : ℤ} {entry track_id metadata : PyVal}
    {elm : Option ℤ} {needs : Bool} {out : PyVal × Store × ℤ × List ExtOp}
    (h : refreshPhase cfg oracle now store budget entry track_id metadata elm needs =
      .ok out) :
    (out.2.2.1 = budget ∧ out.2.1 = store ∧ out.1 = metadata ∧ out.2.2.2 = []) ∨
    (0 < budget ∧ out.2.2.1 = budget - 1 ∧ countFetch out.2.2.2 ≤ 1) := by
  unfold refreshPhase at h
  by_cases hc : (needs = true ∧ 0 < budget)
  · rw [if_pos hc] at h
    obtain ⟨url, hurl, h⟩ := except_bind_ok.mp h
    have hfle := fetch_track_metadata_countFetch oracle url
    cases hnm : (fetch_track_metadata oracle url).1 with
    | none =>
      simp only [hnm] at h
      cases h
      exact Or.inr ⟨hc.2, rfl, hfle⟩
    | some nm =>
      simp only [hnm] at h
      by_cases ht : pyTruthy nm = true
      · rw [if_pos ht] at h
        obtain ⟨slm, hslm, h⟩ := except_bind_ok.mp h
        cases h
        refine Or.inr ⟨hc.2, rfl, ?_⟩
        rw [countFetch_append]
        have hset := set_track_metadata_countFetch cfg store track_id
          (.dict [("version", .str TRACK_METADATA_VERSION), ("fetched_at", .int now),
            ("last_modified", optIntToPy slm), ("metadata", nm)])
        split
        · simpa [hset] using hfle
        · simpa [countFetch] using hfle
      · rw [if_neg ht] at h
        cases h
        exact Or.inr ⟨hc.2, rfl, hfle⟩
  · rw [if_neg hc] at h
    cases h
    exact Or.inl ⟨rfl, rfl, rfl, rfl⟩

/-- When every fetch fails (or none is attempted), the refresh attempt keeps
the candidate metadata and the store unchanged. -/
theorem refreshPhase_no_new_metadata {cfg : KvConfig} {oracle : String → Option PyVal}
    {now : ℤ} {store : Store} {budget : ℤ} {entry track_id metadata : PyVal}
    {elm : Option ℤ} {needs : Bool} {out : PyVal × Store × ℤ × List ExtOp}
    (horacle : budget ≤ 0 ∨ ∀ u, oracle u = Option.none)
    (h : refreshPhase cfg oracle now store budget entry track_id metadata elm needs =
      .ok out) :
    out.1 = metadata ∧ out.2.1 = store := by
  unfold refreshPhase at h
  by_cases hc : (needs = true ∧ 0 < budget)
  · rcases horacle with hb | ho
    · omega
    · rw [if_pos hc] at h
      obtain ⟨url, hurl, h⟩ := except_bind_ok.mp h
      cases url with
      | none =>
        simp only [fetch_track_metadata] at h
        cases h
        exact ⟨rfl, rfl⟩
      | some u =>
        rw [fetch_track_metadata_fail oracle u (ho u)] at h
        cases h
        exact ⟨rfl, rfl⟩
  · rw [if_neg hc] at h
    cases h
    exact ⟨rfl, rfl⟩

/-- Without a truthy track id, the refresh attempt never writes to the
store and its trace holds no KV operation. -/
theorem refreshPhase_no_id {cfg : KvConfig} {oracle : String → Option PyVal}
    {now : ℤ} {store : Store} {budget : ℤ} {entry track_id metadata : PyVal}
    {elm : Option ℤ} {needs : Bool} {out : PyVal × Store × ℤ × List ExtOp}
    (hid : pyTruthy track_id = false)
    (h : refreshPhase cfg oracle now store budget entry track_id metadata elm needs =
      .ok out) :
    out.2.1 = store ∧ noKvOps out.2.2.2 = true := by
  unfold refreshPhase at h
  by_cases hc : (needs = true ∧ 0 < budget)
  · rw [if_pos hc] at h
    obtain ⟨url, hurl, h⟩ := except_bind_ok.mp h
    have hfops := fetch_track_metadata_noKvOps oracle url
    cases hnm : (fetch_track_metadata oracle url).1 with
    | none =>
      simp only [hnm] at h
      cases h
      exact ⟨rfl, hfops⟩
    | some nm =>
      simp only [hnm] at h
      by_cases ht : pyTruthy nm = true
      · rw [if_pos ht] at h
        obtain ⟨slm, hslm, h⟩ := except_bind_ok.mp h
        rw [if_neg (by simp [hid])] at h
        cases h
        refine ⟨rfl, ?_⟩
        rw [noKvOps_append]
        exact (Bool.and_eq_true _ _).mpr ⟨hfops, rfl⟩
      · rw [if_neg ht] at h
        cases h
        exact ⟨rfl, hfops⟩
  · rw [if_neg hc] at h
    cases h
    exact ⟨rfl, rfl⟩

/-- Without credentials, the refresh attempt never writes to the store and
its trace holds no KV operation. -/
theorem refreshPhase_unavailable {cfg : KvConfig} {oracle : String → Option PyVal}
    {now : ℤ} {store : Store} {budget : ℤ} {entry track_id metadata : PyVal}
    {elm : Option ℤ} {needs : Bool} {out : PyVal × Store × ℤ × List ExtOp}
    (hoff : vercel_kv_available cfg = false)
    (h : refreshPhase cfg oracle now store budget entry track_id metadata elm needs =
      .ok out) :
    out.2.1 = store ∧ noKvOps out.2.2.2 = true := by
  unfold refreshPhase at h
  by_cases hc : (needs = true ∧ 0 < budget)
  · rw [if_pos hc] at h
    obtain ⟨url, hurl, h⟩ := except_bind_ok.mp h
    have hfops := fetch_track_metadata_noKvOps oracle url
    cases hnm : (fetch_track_metadata oracle url).1 with
    | none =>
      simp only [hnm] at h
      cases h
      exact ⟨rfl, hfops⟩
    | some nm =>
      simp only [hnm] at h
      by_cases ht : pyTruthy nm = true
      · rw [if_pos ht] at h
        obtain ⟨slm, hslm, h⟩ := except_bind_ok.mp h
        cases h
        constructor
        · split
          · rw [set_track_metadata_unavailable cfg store track_id _ hoff]
          · rfl
        · rw [noKvOps_append]
          refine (Bool.and_eq_true _ _).mpr ⟨hfops, ?_⟩
          split
          · rw [set_track_metadata_unavailable cfg store track_id _ hoff]
            rfl
          · rfl
      · rw [if_neg ht] at h
        cases h
        exact ⟨rfl, hfops⟩
  · rw [if_neg hc] at h
    cases h
    exact ⟨rfl, rfl⟩

/-- When the refresh attempt is not taken (no need, or exhausted budget), it
is a no-op. -/
theorem refreshPhase_skipped (cfg : KvConfig) (oracle : String → Option PyVal)
    (now : ℤ) (store : Store) (budget : ℤ) (entry track_id metadata : PyVal)
    (elm : Option ℤ) (needs : Bool)
    (hc : ¬ (needs = true ∧ 0 < budget)) :
    refreshPhase cfg oracle now store budget entry track_id metadata elm needs =
      .ok (metadata, store, budget, []) := by
  unfold refreshPhase
  rw [if_neg hc]
  rfl

/-- A taken refresh attempt with a resolvable URL: exactly one fetch, budget
down by one. -/
theorem refreshPhase_off_url {cfg : KvConfig} {oracle : String → Option PyVal}
    {now : ℤ} {store : Store} {budget : ℤ} {entry track_id metadata : PyVal}
    {elm : Option ℤ} {needs : Bool} {out : PyVal × Store × ℤ × List ExtOp} {u : String}
    (hurl : resolve_track_url entry = .ok (some u))
    (hneeds : needs = true) (hpos : 0 < budget)
    (h : refreshPhase cfg oracle now store budget entry track_id metadata elm needs =
      .ok out) :
    countFetch out.2.2.2 = 1 ∧ out.2.2.1 = budget - 1 := by
  unfold refreshPhase at h
  rw [if_pos ⟨hneeds, hpos⟩] at h
  obtain ⟨url, hurl', h⟩ := except_bind_ok.mp h
  rw [hurl] at hurl'
  cases hurl'
  have hsnd := fetch_track_metadata_some oracle u
  cases hnm : (fetch_track_metadata oracle (some u)).1 with
  | none =>
    simp only [hnm] at h
    cases h
    simp [hsnd, countFetch]
  | some nm =>
    simp only [hnm] at h
    by_cases ht : pyTruthy nm = true
    · rw [if_pos ht] at h
      obtain ⟨slm, hslm, h⟩ := except_bind_ok.mp h
      cases h
      constructor
      · rw [countFetch_append, hsnd]
        have hset := set_track_metadata_countFetch cfg store track_id
          (.dict [("version", .str TRACK_METADATA_VERSION), ("fetched_at", .int now),
            ("last_modified", optIntToPy slm), ("metadata", nm)])
        split
        · rw [hset]
          rfl
        · rfl
      · rfl
    · rw [if_neg ht] at h
      cases h
      simp [hsnd, countFetch]

/-- Inverting one hydration step into its phases. -/
theorem hydrateStep_inversion {cfg : KvConfig} {oracle : String → Option PyVal}
    {now : ℤ} {st : HydState} {entry : PyVal} {out : PyVal × HydState × List ExtOp}
    (h : hydrateStep cfg oracle now st entry = .ok out) :
    ∃ vg elm rp,
      versionGate (cacheLookup cfg st.store (deriveTrackId entry)).1 = .ok vg ∧
      entryLastModified entry = .ok elm ∧
      refreshPhase cfg oracle now st.store st.budget entry (deriveTrackId entry) vg.1
        elm (needsRefresh vg.1 elm vg.2) = .ok rp ∧
      merge_entry_with_metadata entry
        (if rp.1.isNone ∧ (cacheLookup cfg st.store (deriveTrackId entry)).1.isDict then
          pyGet (cacheLookup cfg st.store (deriveTrackId entry)).1 "metadata"
        else rp.1) = .ok out.1 ∧
      out.2.1 = ⟨rp.2.1, rp.2.2.1⟩ ∧
      out.2.2 = (cacheLookup cfg st.store (deriveTrackId entry)).2 ++ rp.2.2.2 := by
  unfold hydrateStep at h
  obtain ⟨vg, hvg, h⟩ := except_bind_ok.mp h
  obtain ⟨elm, helm, h⟩ := except_bind_ok.mp h
  obtain ⟨rp, hrp, h⟩ := except_bind_ok.mp h
  obtain ⟨mg, hmg, h⟩ := except_bind_ok.mp h
  cases h
  exact ⟨vg, elm, rp, hvg, helm, hrp, hmg, rfl, rfl⟩

/-- Per-step budget/fetch accounting. -/
theorem hydrateStep_accounting {cfg : KvConfig} {oracle : String → Option PyVal}
    {now : ℤ} {st : HydState} {entry : PyVal} {out : PyVal × HydState × List ExtOp}
    (h : hydrateStep cfg oracle now st entry = .ok out) :
    (out.2.1.budget = st.budget ∧ countFetch out.2.2 = 0) ∨
    (0 < st.budget ∧ out.2.1.budget = st.budget - 1 ∧ countFetch out.2.2 ≤ 1) := by
  obtain ⟨vg, elm, rp, hvg, helm, hrp, hmg, hst, hops⟩ := hydrateStep_inversion h
  have h0 := cacheLookup_countFetch cfg st.store (deriveTrackId entry)
  rcases refreshPhase_accounting hrp with ⟨hb, _, _, hops'⟩ | ⟨hpos, hb, hle⟩
  · left
    constructor
    · rw [hst, hb]
    · rw [hops, countFetch_append, h0, hops']
      rfl
  · right
    refine ⟨hpos, ?_, ?_⟩
    · rw [hst, hb]
    · rw [hops, countFetch_append, h0]
      simpa using hle

/-- The per-request bound: a run never performs more fetches than its
initial budget. -/
theorem hydrateGo_countFetch_le {cfg : KvConfig} {oracle : String → Option PyVal}
    {now : ℤ} : ∀ (entries : List PyVal) (st : HydState)
    (out : List PyVal × HydState × List ExtOp),
    hydrateGo cfg oracle now entries st = .ok out →
    countFetch out.2.2 ≤ st.budget.toNat := by
  intro entries
  induction entries with
  | nil =>
    intro st out h
    cases h
    simp [countFetch]
  | cons e rest ih =>
    intro st out h
    unfold hydrateGo at h
    obtain ⟨stepOut, hstep, h⟩ := except_bind_ok.mp h
    obtain ⟨restOut, hrest, h⟩ := except_bind_ok.mp h
    cases h
    have hih := ih stepOut.2.1 restOut hrest
    rcases hydrateStep_accounting hstep with ⟨hb, hc0⟩ | ⟨hpos, hb, hle⟩ <;>
      · simp only [countFetch_append]
        omega

/-- Without credentials and with resolvable URLs everywhere, the run performs
exactly `min (#entries) budget` fetches, decrementing the budget each
time. -/
theorem hydrateGo_exact_off {cfg : KvConfig} {oracle : String → Option PyVal}
    {now : ℤ} (hoff : vercel_kv_available cfg = false) :
    ∀ (entries : List PyVal) (st : HydState)
    (out : List PyVal × HydState × List ExtOp),
    (∀ e ∈ entries, ∃ u, resolve_track_url e = .ok (some u)) →
    hydrateGo cfg oracle now entries st = .ok out →
    countFetch out.2.2 = min entries.length st.budget.toNat ∧
    out.2.1.budget = st.budget - min entries.length st.budget.toNat := by
  intro entries
  induction entries with
  | nil =>
    intro st out _ h
    cases h
    simp [countFetch]
  | cons e rest ih =>
    intro st out hurls h
    unfold hydrateGo at h
    obtain ⟨stepOut, hstep, h⟩ := except_bind_ok.mp h
    obtain ⟨restOut, hrest, h⟩ := except_bind_ok.mp h
    cases h
    obtain ⟨u, hu⟩ := hurls e (by simp)
    obtain ⟨vg, elm, rp, hvg, helm, hrp, hmg, hst, hops⟩ := hydrateStep_inversion hstep
    have hcl := cacheLookup_noKvOps_unavailable cfg st.store (deriveTrackId e) hoff
    have hvg' : vg = (PyVal.none, Option.none) := by
      rw [hcl] at hvg
      cases hvg
      rfl
    have hneeds : needsRefresh vg.1 elm vg.2 = true := by
      rw [hvg']
      rfl
    by_cases hpos : 0 < st.budget
    · have hexact := refreshPhase_off_url hu hneeds hpos hrp
      have hih := ih stepOut.2.1 restOut (fun e' he' => hurls e' (by simp [he'])) hrest
      have hbud : stepOut.2.1.budget = st.budget - 1 := by
        rw [hst]
        exact hexact.2
      rw [hbud] at hih
      have hcf : countFetch stepOut.2.2 = 1 := by
        rw [hops, hcl, countFetch_append]
        simpa [countFetch] using hexact.1
      simp only [countFetch_append, List.length_cons]
      constructor
      · rw [hcf, hih.1]
        omega
      · rw [hih.2]
        omega
    · have hskip := refreshPhase_skipped cfg oracle now st.store st.budget e
        (deriveTrackId e) vg.1 elm (needsRefresh vg.1 elm vg.2)
        (fun hcontra => hpos hcontra.2)
      rw [hskip] at hrp
      cases hrp
      have hih := ih stepOut.2.1 restOut (fun e' he' => hurls e' (by simp [he'])) hrest
      have hbud : stepOut.2.1.budget = st.budget := by rw [hst]
      rw [hbud] at hih
      have hcf : countFetch stepOut.2.2 = 0 := by
        rw [hops, hcl]
        rfl
      simp only [countFetch_append, List.length_cons]
      constructor
      · rw [hcf, hih.1]
        omega
      · rw [hih.2]
        omega

/-! ## C9 — entries without a derivable identifier -/

/-- C9 as stated is wrong about the fetch: an entry with no `id`, `track_id`
or `webpage_url` (so no cache key) can still carry a `url`/`webpage` field,
and the refresh attempt then performs a full expensive fetch for it —
`resolve_track_url` does not depend on the derived track id.  Here a single
identifier-less entry triggers exactly one fetch. -/
theorem c9_counterexample :
    pyTruthy (deriveTrackId (.dict [("url", .str "t")])) = false ∧
    (hydrateStep cfgOn oracleTitleX 0 ⟨[], 1⟩ (.dict [("url", .str "t")])).map
      (fun r => countFetch r.2.2) = .ok 1 := by
  exact ⟨rfl, rfl⟩

/-- C9 (amended): an entry whose derived track identifier is falsy causes no
cache read and no cache write — its step leaves the store untouched and its
trace holds no KV operation (an expensive fetch may still occur when a URL
is resolvable, and the fetched metadata is merged but not cached). -/
theorem c9_no_identifier_no_cache_ops (cfg : KvConfig)
    (oracle : String → Option PyVal) (now : ℤ) (st : HydState) (entry : PyVal)
    (out : PyVal × HydState × List ExtOp)
    (hid : pyTruthy (deriveTrackId entry) = false)
    (h : hydrateStep cfg oracle now st entry = .ok out) :
    noKvOps out.2.2 = true ∧ out.2.1.store = st.store := by
  obtain ⟨vg, elm, rp, hvg, helm, hrp, hmg, hst, hops⟩ := hydrateStep_inversion h
  have hcl := cacheLookup_no_id cfg st.store (deriveTrackId entry) hid
  obtain ⟨hstore, hkv⟩ := refreshPhase_no_id hid hrp
  constructor
  · rw [hops, hcl]
    simpa using hkv
  · rw [hst]
    exact hstore

/-- Witness: the identifier-less entry's step performs only the fetch and
leaves the (empty) store untouched. -/
theorem c9_no_identifier_no_cache_ops_witness :
    noKvOps [ExtOp.fetch "https://soundcloud.com/t"] = true ∧
    ([] : Store) = ([] : Store) :=
  c9_no_identifier_no_cache_ops cfgOn oracleTitleX 0 ⟨[], 1⟩ (.dict [("url", .str "t")])
    (.dict [("url", .str "t"), ("title", .str "X"), ("uploader", .str "Unknown Artist"),
      ("webpage_url", .str "t"), ("duration", .int 0), ("description", .str "")],
      ⟨[], 0⟩, [ExtOp.fetch "https://soundcloud.com/t"])
    rfl rfl

/-! ## C10 — fallback to the cached payload ignores the version tag -/

/-- C10: when a cached record exists (any schema version tag) and the
refresh path yields no new metadata — the budget is exhausted or every
fetch fails — the merged output is built from the cached record's
`metadata` payload: the version check only gates the staleness computation,
not the final fallback merge. -/
theorem c10_fallback_ignores_version (cfg : KvConfig)
    (oracle : String → Option PyVal) (now : ℤ) (st : HydState) (entry : PyVal)
    (r : List (String × PyVal)) (out : PyVal × HydState × List ExtOp)
    (hrec : (cacheLookup cfg st.store (deriveTrackId entry)).1 = .dict r)
    (hno : st.budget ≤ 0 ∨ ∀ u, oracle u = Option.none)
    (h : hydrateStep cfg oracle now st entry = .ok out) :
    merge_entry_with_metadata entry (dGetPy r "metadata") = .ok out.1 := by
  obtain ⟨vg, elm, rp, hvg, helm, hrp, hmg, hst, hops⟩ := hydrateStep_inversion h
  rw [hrec] at hvg hmg
  have hrp1 : rp.1 = vg.1 := (refreshPhase_no_new_metadata hno hrp).1
  have hvg1 : vg.1 = dGetPy r "metadata" ∨ vg.1 = PyVal.none := by
    have hvg' : (if pyEqStr (dGetPy r "version") TRACK_METADATA_VERSION = true then
        ((do
          let clm ← coerce_epoch_seconds (dGetPy r "last_modified")
          pure (dGetPy r "metadata", clm)) : Except PyErr (PyVal × Option ℤ))
      else pure (PyVal.none, Option.none)) = Except.ok vg := hvg
    by_cases hver : pyEqStr (dGetPy r "version") TRACK_METADATA_VERSION = true
    · rw [if_pos hver] at hvg'
      obtain ⟨clm, hclm, hvg'⟩ := except_bind_ok.mp hvg'
      cases hvg'
      exact Or.inl rfl
    · rw [if_neg hver] at hvg'
      cases hvg'
      exact Or.inr rfl
  by_cases hmn : rp.1.isNone = true
  · rw [if_pos ⟨hmn, by rfl⟩] at hmg
    simpa [pyGet] using hmg
  · rw [if_neg (by simp [hmn])] at hmg
    rcases hvg1 with hv | hv
    · rw [hrp1, hv] at hmg
      exact hmg
    · rw [hrp1, hv] at hmn
      exact absurd rfl hmn

/-- Witness: a `v0`-tagged record with failing fetches still supplies its
payload to the merge. -/
theorem c10_fallback_ignores_version_witness :
    merge_entry_with_metadata (.dict [("id", .str "abc"), ("url", .str "x")])
      (dGetPy [("version", PyVal.str "v0"),
        ("metadata", PyVal.dict [("title", PyVal.str "CachedT")])] "metadata") =
    .ok (.dict [("id", .str "abc"), ("url", .str "x"), ("title", .str "CachedT"),
      ("uploader", .str "Unknown Artist"), ("webpage_url", .str "x"),
      ("duration", .int 0), ("description", .str "")]) :=
  c10_fallback_ignores_version cfgOn oracleNone 7
    ⟨[(trackMetadataKey (.str "abc"), .dict [("version", .str "v0"),
      ("metadata", .dict [("title", .str "CachedT")])])], 5⟩
    (.dict [("id", .str "abc"), ("url", .str "x")])
    [("version", .str "v0"), ("metadata", .dict [("title", .str "CachedT")])]
    (.dict [("id", .str "abc"), ("url", .str "x"), ("title", .str "CachedT"),
      ("uploader", .str "Unknown Artist"), ("webpage_url", .str "x"),
      ("duration", .int 0), ("description", .str "")],
      ⟨[(trackMetadataKey (.str "abc"), .dict [("version", .str "v0"),
        ("metadata", .dict [("title", .str "CachedT")])])], 4⟩,
      [ExtOp.kvGet "track-metadata%3Av1%3Aabc", ExtOp.fetch "https://soundcloud.com/x"])
    rfl (Or.inr (fun _ => rfl)) rfl

/-! ## C5 — no-credentials degradation -/

/-- Without credentials, one hydration step emits no KV operation, leaves
the store untouched, and — when every fetch also fails — reduces to the
flat-data merge. -/
theorem hydrateStep_off (cfg : KvConfig) (oracle : String → Option PyVal)
    (now : ℤ) (st : HydState) (entry : PyVal) (out : PyVal × HydState × List ExtOp)
    (hoff : vercel_kv_available cfg = false)
    (h : hydrateStep cfg oracle now st entry = .ok out) :
    noKvOps out.2.2 = true ∧ out.2.1.store = st.store ∧
    ((∀ u, oracle u = Option.none) →
      merge_entry_with_metadata entry .none = .ok out.1) := by
  obtain ⟨vg, elm, rp, hvg, helm, hrp, hmg, hst, hops⟩ := hydrateStep_inversion h
  have hcl := cacheLookup_noKvOps_unavailable cfg st.store (deriveTrackId entry) hoff
  obtain ⟨hstore, hkv⟩ := refreshPhase_unavailable hoff hrp
  refine ⟨?_, ?_, ?_⟩
  · rw [hops, hcl]
    simpa using hkv
  · rw [hst]
    exact hstore
  · intro horacle
    have hvg' : vg = (PyVal.none, Option.none) := by
      rw [hcl] at hvg
      cases hvg
      rfl
    have hrp1 : rp.1 = vg.1 := (refreshPhase_no_new_metadata (Or.inr horacle) hrp).1
    rw [hcl] at hmg
    rw [if_neg (by simp [PyVal.isDict])] at hmg
    rw [hrp1, hvg'] at hmg
    exact hmg

/-- The no-credentials, all-fetches-fail run is exactly the flat-data
defaulting path, with no KV operation and an unchanged store. -/
theorem hydrateGo_off (cfg : KvConfig) (oracle : String → Option PyVal) (now : ℤ)
    (hoff : vercel_kv_available cfg = false) :
    ∀ (entries : List PyVal) (st : HydState)
    (out : List PyVal × HydState × List ExtOp),
    hydrateGo cfg oracle now entries st = .ok out →
    noKvOps out.2.2 = true ∧ out.2.1.store = st.store ∧
    ((∀ u, oracle u = Option.none) →
      entries.mapM (fun e => merge_entry_with_metadata e .none) = .ok out.1) := by
  intro entries
  induction entries with
  | nil =>
    intro st out h
    cases h
    exact ⟨rfl, rfl, fun _ => rfl⟩
  | cons e rest ih =>
    intro st out h
    unfold hydrateGo at h
    obtain ⟨stepOut, hstep, h⟩ := except_bind_ok.mp h
    obtain ⟨restOut, hrest, h⟩ := except_bind_ok.mp h
    cases h
    obtain ⟨hkv₁, hstore₁, hflat₁⟩ := hydrateStep_off cfg oracle now st e stepOut hoff hstep
    obtain ⟨hkv₂, hstore₂, hflat₂⟩ := ih stepOut.2.1 restOut hrest
    refine ⟨?_, ?_, ?_⟩
    · rw [noKvOps_append]
      exact (Bool.and_eq_true _ _).mpr ⟨hkv₁, hkv₂⟩
    · rw [hstore₂, hstore₁]
    · intro horacle
      rw [List.mapM_cons, hflat₁ horacle, hflat₂ horacle]
      rfl

/-- C5 as stated is wrong about the output: with no credentials configured,
`hydrate_track_entries` itself still performs up to `budget` expensive
fetches and merges their results, so its output is *not* the flat-data
defaulting path whenever a fetch succeeds (the deployed handler avoids this
only by not calling `hydrate` at all in that mode).  Here the hydrated
title is the fetched `"X"`, while the flat path gives `"Unknown Title"`. -/
theorem c5_counterexample :
    vercel_kv_available cfgOff = false ∧
    (hydrate_track_entries cfgOff oracleTitleX 0 [] [.dict [("url", .str "t")]] 5).map
      (fun r => r.1.map (fun e => pyGet e "title")) = .ok [.str "X"] ∧
    (merge_entry_with_metadata (.dict [("url", .str "t")]) .none).map
      (fun v => pyGet v "title") = .ok (.str "Unknown Title") ∧
    PyVal.str "X" ≠ PyVal.str "Unknown Title" := by
  refine ⟨rfl, rfl, rfl, ?_⟩
  intro hcontra
  injection hcontra with hs
  exact absurd hs (by decide)

/-- C5 (amended): without credentials every cache primitive is a no-op —
reads return `None`, writes return `False`, with zero store calls attempted
— and a hydration run performs no KV operation and leaves the store
untouched; its output equals the flat-data defaulting path provided no
fetch succeeds (fetches are still attempted, see the counterexample). -/
theorem c5_no_credentials_noop (cfg : KvConfig) (store : Store)
    (tid payload : PyVal) (feed : String) (tsv : ℤ)
    (oracle : String → Option PyVal) (now : ℤ) (entries : List PyVal) (b : ℤ)
    (out : List PyVal × HydState × List ExtOp)
    (hoff : vercel_kv_available cfg = false) :
    get_track_metadata cfg store tid = (.none, []) ∧
    set_track_metadata cfg store tid payload = (false, store, []) ∧
    get_track_first_seen_time cfg store feed tid = (Option.none, []) ∧
    set_track_first_seen_time cfg store feed tid tsv = (false, store, []) ∧
    (hydrate_track_entries cfg oracle now store entries b = .ok out →
      noKvOps out.2.2 = true ∧ out.2.1.store = store ∧
      ((∀ u, oracle u = Option.none) →
        entries.mapM (fun e => merge_entry_with_metadata e .none) = .ok out.1)) := by
  have hguard : ¬ envTruthy cfg.url = true ∨ ¬ envTruthy cfg.token = true := by
    cases hu : envTruthy cfg.url
    · exact Or.inl (by simp)
    · cases ht : envTruthy cfg.token
      · exact Or.inr (by simp)
      · unfold vercel_kv_available at hoff
        rw [hu, ht] at hoff
        cases hoff
  refine ⟨get_track_metadata_unavailable cfg store tid hoff,
    set_track_metadata_unavailable cfg store tid payload hoff, ?_, ?_, ?_⟩
  · unfold get_track_first_seen_time
    rw [if_pos hguard]
  · unfold set_track_first_seen_time
    rw [if_pos hguard]
  · intro hrun
    exact hydrateGo_off cfg oracle now hoff entries ⟨store, max 0 b⟩ out hrun

/-- Witness: a one-entry no-credentials run with a failing extractor is the
flat path: no KV call, store unchanged, flat merge output. -/
theorem c5_no_credentials_noop_witness :
    get_track_metadata cfgOff [] (.str "t") = (.none, []) ∧
    set_track_metadata cfgOff [] (.str "t") (.dict [("title", .str "T")]) =
      (false, [], []) ∧
    get_track_first_seen_time cfgOff [] "f" (.str "t") = (Option.none, []) ∧
    set_track_first_seen_time cfgOff [] "f" (.str "t") 100 = (false, [], []) ∧
    (hydrate_track_entries cfgOff oracleNone 0 [] [.dict [("url", .str "a")]] 5 =
        .ok ([.dict [("url", .str "a"), ("title", .str "Unknown Title"),
          ("uploader", .str "Unknown Artist"), ("webpage_url", .str "a"),
          ("duration", .int 0), ("description", .str "")]], ⟨[], 4⟩,
          [ExtOp.fetch "https://soundcloud.com/a"]) →
      noKvOps [ExtOp.fetch "https://soundcloud.com/a"] = true ∧
      ([] : Store) = ([] : Store) ∧
      ((∀ u, oracleNone u = Option.none) →
        List.mapM (fun e => merge_entry_with_metadata e .none)
          [PyVal.dict [("url", .str "a")]] =
          .ok [.dict [("url", .str "a"), ("title", .str "Unknown Title"),
            ("uploader", .str "Unknown Artist"), ("webpage_url", .str "a"),
            ("duration", .int 0), ("description", .str "")]])) :=
  c5_no_credentials_noop cfgOff [] (.str "t") (.dict [("title", .str "T")]) "f" 100
    oracleNone 0 [.dict [("url", .str "a")]] 5
    ([.dict [("url", .str "a"), ("title", .str "Unknown Title"),
      ("uploader", .str "Unknown Artist"), ("webpage_url", .str "a"),
      ("duration", .int 0), ("description", .str "")]], ⟨[], 4⟩,
      [ExtOp.fetch "https://soundcloud.com/a"])
    rfl

/-! ## C1 — the refresh budget -/

/-- C1 as stated is wrong on two counts visible at one input: with two
entries that both require a refresh (empty store, no credentials) and
budget 1, the claim demands exactly `min 2 (max 0 1) = 1` expensive fetch
and a decrement per fetch; but the first entry resolves no URL, so the
code performs *zero* external fetches while still consuming the entire
budget. -/
theorem c1_counterexample :
    (hydrate_track_entries cfgOff oracleNone 0 [] [.dict [], .dict [("url", .str "abc")]] 1).map
      (fun r => countFetch r.2.2) = .ok 0 ∧
    needsRefresh PyVal.none Option.none Option.none = true ∧
    (0 : ℕ) ≠ min 2 (max 0 (1 : ℤ)).toNat ∧
    (hydrate_track_entries cfgOff oracleNone 0 [] [.dict [], .dict [("url", .str "abc")]] 1).map
      (fun r => r.2.1.budget) = .ok 0 := by
  exact ⟨rfl, rfl, by decide, rfl⟩

/-- C1 (amended): a run performs at most `max 0 budget` expensive fetches;
and when every entry requires a refresh (here: no credentials, so every
cache read misses) *and* every entry resolves to a track URL, exactly
`min (#entries) (max 0 budget)` fetches occur, with the budget decremented
once per refresh attempt (`budget - min ...` remains). -/
theorem c1_fetch_budget (cfg : KvConfig) (oracle : String → Option PyVal)
    (now : ℤ) (store : Store) (entries : List PyVal) (b : ℤ)
    (out : List PyVal × HydState × List ExtOp)
    (h : hydrate_track_entries cfg oracle now store entries b = .ok out) :
    countFetch out.2.2 ≤ (max 0 b).toNat ∧
    (vercel_kv_available cfg = false →
      (∀ e ∈ entries, ∃ u, resolve_track_url e = .ok (some u)) →
      countFetch out.2.2 = min entries.length (max 0 b).toNat ∧
      out.2.1.budget = max 0 b - min entries.length (max 0 b).toNat) := by
  constructor
  · have := hydrateGo_countFetch_le entries ⟨store, max 0 b⟩ out h
    simpa using this
  · intro hoff hurls
    have := hydrateGo_exact_off hoff entries ⟨store, max 0 b⟩ out hurls h
    simpa using this

/-- Witness: two URL-bearing entries, budget 1, failing extractor: exactly
one fetch (`min 2 1`), budget exhausted. -/
theorem c1_fetch_budget_witness :
    countFetch [ExtOp.fetch "https://soundcloud.com/a"] ≤ (max 0 (1 : ℤ)).toNat ∧
    countFetch [ExtOp.fetch "https://soundcloud.com/a"] =
      min ([PyVal.dict [("url", PyVal.str "a")], PyVal.dict [("url", PyVal.str "b")]]).length
        (max 0 (1 : ℤ)).toNat ∧
    (0 : ℤ) = max 0 (1 : ℤ) -
      min ([PyVal.dict [("url", PyVal.str "a")], PyVal.dict [("url", PyVal.str "b")]]).length
        (max 0 (1 : ℤ)).toNat := by
  have h := c1_fetch_budget cfgOff oracleNone 0 []
    [.dict [("url", .str "a")], .dict [("url", .str "b")]] 1
    ([.dict [("url", .str "a"), ("title", .str "Unknown Title"),
        ("uploader", .str "Unknown Artist"), ("webpage_url", .str "a"),
        ("duration", .int 0), ("description", .str "")],
      .dict [("url", .str "b"), ("title", .str "Unknown Title"),
        ("uploader", .str "Unknown Artist"), ("webpage_url", .str "b"),
        ("duration", .int 0), ("description", .str "")]], ⟨[], 0⟩,
      [ExtOp.fetch "https://soundcloud.com/a"])
    rfl
  have h2 := h.2 rfl (by
    intro e he
    simp only [List.mem_cons, List.not_mem_nil, or_false] at he
    rcases he with he | he
    · exact ⟨"https://soundcloud.com/a", by rw [he]; rfl⟩
    · exact ⟨"https://soundcloud.com/b", by rw [he]; rfl⟩)
  exact ⟨h.1, h2.1, h2.2.symm⟩

end SCPod
